import Mathlib

/-!
Verification model of the friend-relationship engine in `server/core_friend.go`
(functions `addFriend`, `AddFriends`, `deleteFriend`, `DeleteFriends`,
`blockFriend`, `BlockFriends`).

The database is modelled shallowly: the `user_edge` table is a list of edge
rows and the `users` table a list of user rows.  Each SQL statement of the Go
source is translated into an explicit list transformation together with the
number of affected rows, matching the `RowsAffected` checks of the source.
Relationship states are the integers used by the source:
`0 = Accepted`, `1 = Invited`, `2 = OutgoingRequest`, `3 = Blocked`.
-/

set_option autoImplicit false

universe u

/-- A row of the `user_edge` table: `(source_id, destination_id, state, position, update_time)`. -/
structure Edge where
  source_id : Nat
  destination_id : Nat
  state : Nat
  position : Int
  update_time : Int
deriving DecidableEq, Repr

/-- A row of the `users` table, restricted to the columns the relationship
engine touches: `id`, `edge_count` and `update_time`. -/
structure UserRow where
  id : Nat
  edge_count : Int
  update_time : Int
deriving DecidableEq, Repr

/-- The database state seen by the relationship engine: the `users` table and
the `user_edge` table. -/
structure DB where
  users : List UserRow
  user_edge : List Edge
deriving DecidableEq, Repr

/-- The two error values the engine itself produces: `sql.ErrNoRows`, used as a
benign "no further action" sentinel, and the internal consistency error
`errors.New("unexpected number of edges were deleted")` of `deleteFriend`. -/
inductive FriendErr where
  | errNoRows
  | unexpectedEdgesDeleted
deriving DecidableEq, Repr

/-- `source_id = s AND destination_id = d`, the key of the unique constraint on
`user_edge`. -/
def isKeyEdge (s d : Nat) (e : Edge) : Bool :=
  e.source_id == s && e.destination_id == d

/-- `DELETE FROM user_edge WHERE p`: remaining table and affected row count. -/
def execDeleteEdges (db : DB) (p : Edge → Bool) : DB × Nat :=
  ({ db with user_edge := db.user_edge.filter (fun e => !(p e)) }, db.user_edge.countP p)

/-- `UPDATE user_edge SET ... WHERE p`: updated table and affected row count. -/
def execUpdateEdges (db : DB) (p : Edge → Bool) (g : Edge → Edge) : DB × Nat :=
  ({ db with user_edge := db.user_edge.map (fun e => if p e then g e else e) }, db.user_edge.countP p)

/-- `UPDATE users SET ... WHERE p`: updated table and affected row count. -/
def execUpdateUsers (db : DB) (p : UserRow → Bool) (g : UserRow → UserRow) : DB × Nat :=
  ({ db with users := db.users.map (fun r => if p r then g r else r) }, db.users.countP p)

/-- `EXISTS (SELECT id FROM users WHERE id = $id)`. -/
def userExists (db : DB) (id : Nat) : Bool :=
  db.users.any (fun r => r.id == id)

/-- Insert one row subject to `ON CONFLICT (source_id, destination_id) DO
NOTHING`: the row is appended unless an edge with the same key already exists. -/
def insertEdgeOnConflictDoNothing (db : DB) (e : Edge) : DB × Nat :=
  if db.user_edge.any (isKeyEdge e.source_id e.destination_id) then (db, 0)
  else ({ db with user_edge := db.user_edge ++ [e] }, 1)

/-- Step 1 of `addFriend`: `DELETE FROM user_edge WHERE source_id = $1 AND
destination_id = $2 AND state = 3` (unblock a previously blocked target). -/
def unblockDelete (db : DB) (userID friendID : Nat) : DB × Nat :=
  execDeleteEdges db (fun e => isKeyEdge userID friendID e && e.state == 3)

/-- Step 2 of `addFriend`: `UPDATE user_edge SET state = 0, update_time = $3
WHERE (source_id = $1 AND destination_id = $2 AND state = 2) OR (source_id = $2
AND destination_id = $1 AND state = 1)` with `$1 = friendID`, `$2 = userID`
(mark an invite as accepted, if one was in place). -/
def acceptInvite (db : DB) (userID friendID : Nat) (timestamp : Int) : DB × Nat :=
  execUpdateEdges db
    (fun e => (isKeyEdge friendID userID e && e.state == 2) ||
              (isKeyEdge userID friendID e && e.state == 1))
    (fun e => { e with state := 0, update_time := timestamp })

/-- Step 3 of `addFriend`: insert the rows `(userID, friendID, 2, now, now)`
and `(friendID, userID, 1, now, now)` provided the target user exists, with
`ON CONFLICT (source_id, destination_id) DO NOTHING`. -/
def insertInvitePair (db : DB) (userID friendID : Nat) (timestamp : Int) : DB :=
  if userExists db friendID then
    let i1 := insertEdgeOnConflictDoNothing db ⟨userID, friendID, 2, timestamp, timestamp⟩
    (insertEdgeOnConflictDoNothing i1.1 ⟨friendID, userID, 1, timestamp, timestamp⟩).1
  else db

/-- The `NOT EXISTS` subquery of step 4 of `addFriend`: is there an edge
between the two users whose `position` differs from the current timestamp
(i.e. an edge not created by this very call)? -/
def pairExistsOtherPos (db : DB) (userID friendID : Nat) (timestamp : Int) : Bool :=
  db.user_edge.any (fun e =>
    (isKeyEdge userID friendID e && e.position != timestamp) ||
    (isKeyEdge friendID userID e && e.position != timestamp))

/-- Step 4 of `addFriend`: `UPDATE users SET edge_count = edge_count + 1,
update_time = $3 WHERE (id = $1 OR id = $2) AND NOT EXISTS (...)`. -/
def inviteCountUpdate (db : DB) (userID friendID : Nat) (timestamp : Int) : DB × Nat :=
  execUpdateUsers db
    (fun r => (r.id == userID || r.id == friendID) && !(pairExistsOtherPos db userID friendID timestamp))
    (fun r => { r with edge_count := r.edge_count + 1, update_time := timestamp })

/-- `addFriend` of `core_friend.go`.  The result is `((isFriendAccept, err),
state)`: the boolean reported for the notification map, the error value
(`none`, benign `sql.ErrNoRows`, or fatal), and the state after the call. -/
def addFriend (db : DB) (userID friendID : Nat) (timestamp : Int) :
    (Bool × Option FriendErr) × DB :=
  let d := unblockDelete db userID friendID
  if d.2 = 1 then
    ((false, some .errNoRows),
     (execUpdateUsers d.1 (fun r => r.id == userID)
       (fun r => { r with edge_count := r.edge_count - 1, update_time := timestamp })).1)
  else
    let a := acceptInvite d.1 userID friendID timestamp
    if a.2 = 2 then ((true, none), a.1)
    else
      let dbIns := insertInvitePair a.1 userID friendID timestamp
      let c := inviteCountUpdate dbIns userID friendID timestamp
      if c.2 ≠ 2 then ((false, some .errNoRows), c.1)
      else ((false, none), c.1)

/-- `deleteFriend` of `core_friend.go`: delete both directed edges between the
two users, then branch on the affected row count. -/
def deleteFriend (db : DB) (userID friendID : Nat) (timestamp : Int) :
    Option FriendErr × DB :=
  let d := execDeleteEdges db (fun e => isKeyEdge userID friendID e || isKeyEdge friendID userID e)
  if d.2 = 0 then (none, d.1)
  else if d.2 ≠ 2 then (some .unexpectedEdgesDeleted, d.1)
  else
    (none,
     (execUpdateUsers d.1 (fun r => r.id == userID || r.id == friendID)
       (fun r => { r with edge_count := r.edge_count - 1, update_time := timestamp })).1)

/-- Tail of `blockFriend`: `DELETE FROM user_edge WHERE source_id = $1 AND
destination_id = $2 AND state != 3` with `$1 = friendID`, `$2 = userID`
(delete the opposite relationship unless the target has blocked the actor),
decrementing the target's `edge_count` when a row was removed. -/
def blockOppositeDelete (db : DB) (userID friendID : Nat) (timestamp : Int) : DB :=
  let d := execDeleteEdges db (fun e => isKeyEdge friendID userID e && !(e.state == 3))
  if d.2 = 1 then
    (execUpdateUsers d.1 (fun r => r.id == friendID)
      (fun r => { r with edge_count := r.edge_count - 1, update_time := timestamp })).1
  else d.1

/-- `blockFriend` of `core_friend.go`. -/
def blockFriend (db : DB) (userID friendID : Nat) (timestamp : Int) :
    Option FriendErr × DB :=
  let u := execUpdateEdges db (fun e => isKeyEdge userID friendID e)
    (fun e => { e with state := 3, update_time := timestamp })
  if u.2 = 0 then
    if userExists u.1 friendID then
      let dbIns := { u.1 with user_edge := u.1.user_edge ++ [⟨userID, friendID, 3, timestamp, timestamp⟩] }
      let dbCnt := (execUpdateUsers dbIns (fun r => r.id == userID)
        (fun r => { r with edge_count := r.edge_count + 1, update_time := timestamp })).1
      (none, blockOppositeDelete dbCnt userID friendID timestamp)
    else (none, u.1)
  else (none, blockOppositeDelete u.1 userID friendID timestamp)

/-- Modelled from the spec: the repository's transaction helper `Transact`
(referenced by `core_friend.go` but outside this excerpt) runs a unit of work
inside one database transaction with commit-on-success and rollback-on-error
semantics (spec §6, §9).  On success the new state is committed; on error the
pre-transaction state is kept and the error is returned. -/
def Transact {α : Type u} (db : DB) (fn : DB → Except FriendErr (α × DB)) :
    Option FriendErr × Option α × DB :=
  match fn db with
  | .ok (a, db1) => (none, some a, db1)
  | .error e => (some e, none, db)

/-- The per-id loop of `AddFriends`: on a `nil` error record the notification
flag, on `sql.ErrNoRows` skip the id silently, on any other error abort. -/
def addFriendLoop (currentUser : Nat) (ts : Int) :
    List Nat → List (Nat × Bool) → DB → Except FriendErr (List (Nat × Bool) × DB)
  | [], notifs, db => .ok (notifs, db)
  | id :: rest, notifs, db =>
    let r := addFriend db currentUser id ts
    match r.1.2 with
    | none => addFriendLoop currentUser ts rest (notifs ++ [(id, r.1.1)]) r.2
    | some FriendErr.errNoRows => addFriendLoop currentUser ts rest notifs r.2
    | some e => .error e

/-- `AddFriends` of `core_friend.go`: the whole id list is processed inside one
transaction; the returned list is the `notificationToSend` map. -/
def AddFriends (db : DB) (currentUser : Nat) (ids : List Nat) (ts : Int) :
    Option FriendErr × Option (List (Nat × Bool)) × DB :=
  Transact db (fun db0 => addFriendLoop currentUser ts ids [] db0)

/-- The per-id loop of `DeleteFriends`: any error aborts. -/
def deleteFriendLoop (currentUser : Nat) (ts : Int) :
    List Nat → DB → Except FriendErr (Unit × DB)
  | [], db => .ok ((), db)
  | id :: rest, db =>
    let r := deleteFriend db currentUser id ts
    match r.1 with
    | none => deleteFriendLoop currentUser ts rest r.2
    | some e => .error e

/-- `DeleteFriends` of `core_friend.go`. -/
def DeleteFriends (db : DB) (currentUser : Nat) (ids : List Nat) (ts : Int) :
    Option FriendErr × DB :=
  let t := Transact db (fun db0 => deleteFriendLoop currentUser ts ids db0)
  (t.1, t.2.2)

/-- The per-id loop of `BlockFriends`: any error aborts. -/
def blockFriendLoop (currentUser : Nat) (ts : Int) :
    List Nat → DB → Except FriendErr (Unit × DB)
  | [], db => .ok ((), db)
  | id :: rest, db =>
    let r := blockFriend db currentUser id ts
    match r.1 with
    | none => blockFriendLoop currentUser ts rest r.2
    | some e => .error e

/-- `BlockFriends` of `core_friend.go`. -/
def BlockFriends (db : DB) (currentUser : Nat) (ids : List Nat) (ts : Int) :
    Option FriendErr × DB :=
  let t := Transact db (fun db0 => blockFriendLoop currentUser ts ids db0)
  (t.1, t.2.2)

/-- The edge with key `(s, d)`, i.e. the row `SELECT * FROM user_edge WHERE
source_id = s AND destination_id = d`. -/
def findEdge (db : DB) (s d : Nat) : Option Edge :=
  db.user_edge.find? (isKeyEdge s d)

/-- The user row with a given id. -/
def findUser (db : DB) (id : Nat) : Option UserRow :=
  db.users.find? (fun r => r.id == id)

/-- The stored `edge_count` of a user (`0` when the user row is absent). -/
def edgeCountOf (db : DB) (u : Nat) : Int :=
  ((findUser db u).map UserRow.edge_count).getD 0

/-- The number of edge rows whose `source_id` is `u`. -/
def sourceEdgeCount (db : DB) (u : Nat) : Nat :=
  db.user_edge.countP (fun e => e.source_id == u)

/-- The number of directed edges between the unordered pair `{a, b}`. -/
def edgesBetween (db : DB) (a b : Nat) : Nat :=
  db.user_edge.countP (fun e => isKeyEdge a b e || isKeyEdge b a e)

/-- The unique constraint on `(source_id, destination_id)`: no two rows of the
edge table share a key. -/
def keyUnique : List Edge → Prop
  | [] => True
  | e :: es =>
    (∀ e2 ∈ es, ¬(e2.source_id = e.source_id ∧ e2.destination_id = e.destination_id)) ∧
    keyUnique es

/-- Primary key of the `users` table: ids are pairwise distinct. -/
def idsUnique : List UserRow → Prop
  | [] => True
  | r :: rs => (∀ r2 ∈ rs, r2.id ≠ r.id) ∧ idsUnique rs

/-- Foreign-key style condition: both endpoints of every edge are existing
users. -/
def edgeUsersExist (db : DB) : Prop :=
  ∀ e ∈ db.user_edge, userExists db e.source_id = true ∧ userExists db e.destination_id = true

/-- At most one element of the list satisfies `k`. -/
def atMostOneP {α : Type u} (k : α → Bool) : List α → Prop
  | [] => True
  | a :: l => (k a = true → ∀ b ∈ l, k b = false) ∧ atMostOneP k l

/-- Initial state of the scenario traces: two fresh users `1` and `2` with zero
counts and no edges. -/
def dbPair0 : DB := ⟨[⟨1, 0, 0⟩, ⟨2, 0, 0⟩], []⟩

/-- State committed by `AddFriends dbPair0 1 [2] 10`: the pending invite pair
1→2 `OutgoingRequest` / 2→1 `Invited`. -/
def dbInvite : DB := (AddFriends dbPair0 1 [2] 10).2.2

/-- State committed by `BlockFriends dbInvite 2 [1] 20`: user 2 blocked user 1. -/
def dbBlocked : DB := (BlockFriends dbInvite 2 [1] 20).2

/-- State committed by `AddFriends dbBlocked 1 [2] 30`: user 1 re-adds user 2
while 2's block is active. -/
def dbReadd : DB := (AddFriends dbBlocked 1 [2] 30).2.2

/-- A state in which the actor 1 has a pending outgoing request to 2:
1→2 `OutgoingRequest` and 2→1 `Invited`. -/
def dbYState : DB := ⟨[⟨1, 1, 0⟩, ⟨2, 1, 0⟩], [⟨1, 2, 2, 5, 5⟩, ⟨2, 1, 1, 5, 5⟩]⟩

/-- A state in which user 2 has invited user 1: 2→1 `OutgoingRequest` and
1→2 `Invited`. -/
def dbXState : DB := ⟨[⟨1, 1, 0⟩, ⟨2, 1, 0⟩], [⟨2, 1, 2, 5, 5⟩, ⟨1, 2, 1, 5, 5⟩]⟩

instance (db : DB) : Decidable (edgeUsersExist db) :=
  List.decidableBAll _ db.user_edge

instance : DecidablePred (keyUnique ·) := by
  intro l
  induction l with
  | nil => exact .isTrue trivial
  | cons e es ih => unfold keyUnique; exact @instDecidableAnd _ _ _ ih

instance : DecidablePred (idsUnique ·) := by
  intro l
  induction l with
  | nil => exact .isTrue trivial
  | cons r rs ih => unfold idsUnique; exact @instDecidableAnd _ _ _ ih

/-! ### Generic lemmas about `find?` and `countP` under key uniqueness -/

theorem isKeyEdge_eq_true {s d : Nat} {e : Edge} :
    isKeyEdge s d e = true ↔ e.source_id = s ∧ e.destination_id = d := by
  simp [isKeyEdge]

theorem atMostOneP_of_keyUnique {es : List Edge} (h : keyUnique es) (s d : Nat) :
    atMostOneP (isKeyEdge s d) es := by
  induction es with
  | nil => trivial
  | cons e t ih =>
    obtain ⟨h1, h2⟩ := h
    refine ⟨?_, ih h2⟩
    intro hk b hb
    rcases isKeyEdge_eq_true.mp hk with ⟨hs, hd⟩
    cases hb2 : isKeyEdge s d b with
    | false => rfl
    | true =>
      rcases isKeyEdge_eq_true.mp hb2 with ⟨hbs, hbd⟩
      exact absurd ⟨hbs.trans hs.symm, hbd.trans hd.symm⟩ (h1 b hb)

theorem atMostOneP_of_idsUnique {us : List UserRow} (h : idsUnique us) (i : Nat) :
    atMostOneP (fun r => r.id == i) us := by
  induction us with
  | nil => trivial
  | cons r t ih =>
    obtain ⟨h1, h2⟩ := h
    refine ⟨?_, ih h2⟩
    intro hk b hb
    simp only [beq_iff_eq] at hk
    cases hb2 : (b.id == i) with
    | false => exact hb2
    | true =>
      simp only [beq_iff_eq] at hb2
      exact absurd (hb2.trans hk.symm) (h1 b hb)

theorem find?_eq_some_of_mem {α : Type u} {k : α → Bool} {l : List α} {a : α}
    (h : atMostOneP k l) (ha : a ∈ l) (hk : k a = true) : l.find? k = some a := by
  induction l with
  | nil => cases ha
  | cons b t ih =>
    rcases List.mem_cons.mp ha with rfl | hat
    · exact List.find?_cons_of_pos _ hk
    · cases hb : k b with
      | false => rw [List.find?_cons_of_neg _ (by simp [hb])]; exact ih h.2 hat
      | true => exact absurd (h.1 hb a hat) (by simp [hk])

theorem countP_key_some {α : Type u} {k r : α → Bool} {l : List α} {a : α}
    (h : atMostOneP k l) (hf : l.find? k = some a) :
    l.countP (fun x => k x && r x) = if r a = true then 1 else 0 := by
  induction l with
  | nil => simp at hf
  | cons b t ih =>
    cases hb : k b with
    | false =>
      rw [List.find?_cons_of_neg _ (by simp [hb])] at hf
      rw [List.countP_cons, ih h.2 hf]
      simp [hb]
    | true =>
      rw [List.find?_cons_of_pos _ hb] at hf
      injection hf with hf
      subst hf
      have ht : t.countP (fun x => k x && r x) = 0 := by
        apply List.countP_eq_zero.mpr
        intro x hx
        simp [h.1 hb x hx]
      rw [List.countP_cons, ht]
      simp [hb]

theorem countP_key_none {α : Type u} {k r : α → Bool} {l : List α}
    (hf : l.find? k = none) : l.countP (fun x => k x && r x) = 0 := by
  apply List.countP_eq_zero.mpr
  intro x hx
  have := List.find?_eq_none.mp hf x hx
  simp [Bool.eq_false_iff.mpr this]

theorem countP_eq_one_of_find?_some {α : Type u} {k : α → Bool} {l : List α} {a : α}
    (h : atMostOneP k l) (hf : l.find? k = some a) : l.countP k = 1 := by
  have := countP_key_some (r := fun _ => true) h hf
  simpa using this

theorem countP_eq_zero_of_find?_none {α : Type u} {k : α → Bool} {l : List α}
    (hf : l.find? k = none) : l.countP k = 0 := by
  have := countP_key_none (r := fun _ => true) hf
  simpa using this

theorem countP_or_disjoint {α : Type u} {p q : α → Bool} {l : List α}
    (h : ∀ a ∈ l, p a = true → q a = false) :
    l.countP (fun x => p x || q x) = l.countP p + l.countP q := by
  induction l with
  | nil => simp
  | cons b t ih =>
    have ih' := ih (fun a ha => h a (List.mem_cons_of_mem _ ha))
    rw [List.countP_cons, List.countP_cons, List.countP_cons, ih']
    by_cases hp : p b = true
    · have hq := h b (List.mem_cons_self _ _) hp
      rw [if_pos (by simp [hp]), if_pos hp, if_neg (by simp [hq])]
      omega
    · have hp' : p b = false := Bool.eq_false_iff.mpr hp
      rw [if_neg hp]
      by_cases hq : q b = true
      · rw [if_pos (by simp [hp', hq]), if_pos hq]
        omega
      · rw [if_neg (by simp [hp', Bool.eq_false_iff.mpr hq]), if_neg hq]
        omega

theorem countP_key_exists {α : Type u} {k r : α → Bool} {l : List α}
    (h : atMostOneP k l) (hc : l.countP (fun x => k x && r x) = 1) :
    ∃ a, l.find? k = some a ∧ r a = true := by
  have hpos : 0 < l.countP (fun x => k x && r x) := by omega
  rcases List.countP_pos_iff.mp hpos with ⟨a, ha, hra⟩
  simp only [Bool.and_eq_true] at hra
  exact ⟨a, find?_eq_some_of_mem h ha hra.1, hra.2⟩

theorem find?_map_keyfix {α : Type u} {k : α → Bool} {g : α → α} {l : List α}
    (hg : ∀ a, k (g a) = k a) : (l.map g).find? k = (l.find? k).map g := by
  induction l with
  | nil => rfl
  | cons b t ih =>
    cases hb : k b with
    | false =>
      rw [List.map_cons, List.find?_cons_of_neg _ (by simp [hg, hb]),
          List.find?_cons_of_neg _ (by simp [hb]), ih]
    | true =>
      rw [List.map_cons, List.find?_cons_of_pos _ (by simp [hg, hb]),
          List.find?_cons_of_pos _ hb, Option.map_some']

theorem find?_filter_not_of_none {α : Type u} {k p : α → Bool} {l : List α}
    (hf : l.find? k = none) : (l.filter (fun a => !(p a))).find? k = none := by
  apply List.find?_eq_none.mpr
  intro x hx
  exact List.find?_eq_none.mp hf x (List.mem_of_mem_filter hx)

theorem find?_filter_not_some {α : Type u} {k p : α → Bool} {l : List α} {a : α}
    (h : atMostOneP k l) (hf : l.find? k = some a) :
    (l.filter (fun a => !(p a))).find? k = if p a = true then none else some a := by
  induction l with
  | nil => simp at hf
  | cons b t ih =>
    cases hb : k b with
    | false =>
      rw [List.find?_cons_of_neg _ (by simp [hb])] at hf
      cases hpb : p b with
      | false =>
        rw [List.filter_cons_of_pos (by simp [hpb]),
            List.find?_cons_of_neg _ (by simp [hb])]
        exact ih h.2 hf
      | true =>
        rw [List.filter_cons_of_neg (by simp [hpb])]
        exact ih h.2 hf
    | true =>
      rw [List.find?_cons_of_pos _ hb] at hf
      have hba : b = a := by injection hf
      subst hba
      have htn : ∀ x ∈ t, k x = false := h.1 hb
      cases hpa : p b with
      | false =>
        rw [List.filter_cons_of_pos (by simp [hpa]), List.find?_cons_of_pos _ hb]
        simp [hpa]
      | true =>
        rw [List.filter_cons_of_neg (by simp [hpa])]
        have hnone : (t.filter (fun x => !(p x))).find? k = none := by
          apply List.find?_eq_none.mpr
          intro x hx
          simp [htn x (List.mem_of_mem_filter hx)]
        rw [hnone]
        simp [hpa]

theorem find?_filter_not_other {α : Type u} {k p : α → Bool} {l : List α}
    (h : ∀ a ∈ l, p a = true → k a = false) :
    (l.filter (fun a => !(p a))).find? k = l.find? k := by
  induction l with
  | nil => rfl
  | cons b t ih =>
    have ih' := ih (fun a ha => h a (List.mem_cons_of_mem _ ha))
    cases hpb : p b with
    | false =>
      rw [List.filter_cons_of_pos (by simp [hpb])]
      cases hb : k b with
      | false =>
        rw [List.find?_cons_of_neg _ (by simp [hb]), List.find?_cons_of_neg _ (by simp [hb]), ih']
      | true =>
        rw [List.find?_cons_of_pos _ hb, List.find?_cons_of_pos _ hb]
    | true =>
      rw [List.filter_cons_of_neg (by simp [hpb]),
          List.find?_cons_of_neg _ (by simp [h b (List.mem_cons_self _ _) hpb]), ih']

theorem find?_append_single {α : Type u} {k : α → Bool} {l : List α} {a : α} :
    (l ++ [a]).find? k =
      match l.find? k with
      | some b => some b
      | none => if k a = true then some a else none := by
  induction l with
  | nil => cases hk : k a <;> simp [List.find?, hk]
  | cons b t ih =>
    cases hb : k b with
    | false =>
      rw [List.cons_append, List.find?_cons_of_neg _ (by simp [hb]),
          List.find?_cons_of_neg _ (by simp [hb]), ih]
    | true =>
      rw [List.cons_append, List.find?_cons_of_pos _ hb, List.find?_cons_of_pos _ hb]

theorem filter_not_eq_self {α : Type u} {p : α → Bool} {l : List α}
    (h : l.countP p = 0) : l.filter (fun a => !(p a)) = l := by
  apply List.filter_eq_self.mpr
  intro a ha
  simp [List.countP_eq_zero.mp h a ha]

theorem map_ite_eq_self {α : Type u} {p : α → Bool} {g : α → α} {l : List α}
    (h : ∀ a ∈ l, p a = false) : l.map (fun a => if p a then g a else a) = l := by
  induction l with
  | nil => rfl
  | cons b t ih =>
    rw [List.map_cons, if_neg (by simp [h b (List.mem_cons_self _ _)]),
        ih (fun a ha => h a (List.mem_cons_of_mem _ ha))]

theorem atMostOneP_map_keyfix {α : Type u} {k : α → Bool} {g : α → α} {l : List α}
    (hg : ∀ a, k (g a) = k a) (h : atMostOneP k l) : atMostOneP k (l.map g) := by
  induction l with
  | nil => trivial
  | cons b t ih =>
    refine ⟨?_, ih h.2⟩
    intro hk c hc
    rcases List.mem_map.mp hc with ⟨c0, hc0, rfl⟩
    rw [hg]
    exact h.1 (by rw [hg] at hk; exact hk) c0 hc0

theorem atMostOneP_filter {α : Type u} {k q : α → Bool} {l : List α}
    (h : atMostOneP k l) : atMostOneP k (l.filter q) := by
  induction l with
  | nil => trivial
  | cons b t ih =>
    by_cases hq : q b = true
    · rw [List.filter_cons_of_pos hq]
      exact ⟨fun hk c hc => h.1 hk c (List.mem_of_mem_filter hc), ih h.2⟩
    · rw [List.filter_cons_of_neg hq]
      exact ih h.2

theorem atMostOneP_append_single {α : Type u} {k : α → Bool} {l : List α} {a : α}
    (h : atMostOneP k l) (ha : k a = true → ∀ b ∈ l, k b = false) :
    atMostOneP k (l ++ [a]) := by
  induction l with
  | nil =>
    refine ⟨fun _ b hb => ?_, trivial⟩
    cases hb
  | cons b t ih =>
    refine ⟨?_, ih h.2 (fun hk c hc => ha hk c (List.mem_cons_of_mem _ hc))⟩
    intro hk c hc
    rcases List.mem_append.mp hc with hct | hca
    · exact h.1 hk c hct
    · rcases List.mem_singleton.mp hca with rfl
      cases hc2 : k c with
      | false => rfl
      | true => exact absurd hk (by simp [ha hc2 b (List.mem_cons_self _ _)])

/-! ### Helper lemmas about the modelled operations -/

theorem execDeleteEdges_users (db : DB) (p : Edge → Bool) :
    (execDeleteEdges db p).1.users = db.users := rfl

theorem execUpdateEdges_users (db : DB) (p : Edge → Bool) (g : Edge → Edge) :
    (execUpdateEdges db p g).1.users = db.users := rfl

theorem execUpdateUsers_edges (db : DB) (p : UserRow → Bool) (g : UserRow → UserRow) :
    (execUpdateUsers db p g).1.user_edge = db.user_edge := rfl

theorem insertEdgeOnConflictDoNothing_users (db : DB) (e : Edge) :
    (insertEdgeOnConflictDoNothing db e).1.users = db.users := by
  unfold insertEdgeOnConflictDoNothing
  split <;> rfl

theorem insertInvitePair_users (db : DB) (u f : Nat) (ts : Int) :
    (insertInvitePair db u f ts).users = db.users := by
  unfold insertInvitePair
  split
  · rw [insertEdgeOnConflictDoNothing_users, insertEdgeOnConflictDoNothing_users]
  · rfl

theorem userExists_congr {db1 db2 : DB} (h : db1.users = db2.users) (i : Nat) :
    userExists db1 i = userExists db2 i := by
  unfold userExists
  rw [h]

theorem findUser_isSome_of_userExists {db : DB} {i : Nat} (h : userExists db i = true) :
    ∃ r, findUser db i = some r ∧ r.id = i := by
  unfold userExists at h
  rcases List.any_eq_true.mp h with ⟨r0, hr0, hid0⟩
  have hs : (db.users.find? (fun r => r.id == i)).isSome = true :=
    List.find?_isSome.mpr ⟨r0, hr0, hid0⟩
  rcases Option.isSome_iff_exists.mp hs with ⟨r, hr⟩
  have hid : r.id = i := by
    have := List.find?_some hr
    simpa using this
  exact ⟨r, hr, hid⟩

theorem userExists_eq_false_iff {db : DB} {i : Nat} :
    userExists db i = false ↔ findUser db i = none := by
  unfold userExists findUser
  constructor
  · intro h
    apply List.find?_eq_none.mpr
    intro r hr
    have := List.any_eq_false.mp h r hr
    simpa using this
  · intro h
    apply List.any_eq_false.mpr
    intro r hr
    have := List.find?_eq_none.mp h r hr
    simpa using this

theorem findUser_execUpdateUsers (db : DB) (pr : UserRow → Bool) (g : UserRow → UserRow)
    (hg : ∀ r, (g r).id = r.id) (i : Nat) :
    findUser (execUpdateUsers db pr g).1 i =
      (findUser db i).map (fun r => if pr r then g r else r) := by
  unfold findUser execUpdateUsers
  exact find?_map_keyfix (by intro a; cases hpr : pr a <;> simp [hpr, hg])

theorem findEdge_execUpdateUsers (db : DB) (pr : UserRow → Bool) (g : UserRow → UserRow)
    (s d : Nat) : findEdge (execUpdateUsers db pr g).1 s d = findEdge db s d := rfl

theorem countP_key_cases {α : Type u} {k : α → Bool} {l : List α} (h : atMostOneP k l) :
    (l.countP k = 0 ∧ l.find? k = none) ∨ (∃ a, l.find? k = some a ∧ l.countP k = 1) := by
  cases hf : l.find? k with
  | none => exact .inl ⟨countP_eq_zero_of_find?_none hf, rfl⟩
  | some a => exact .inr ⟨a, rfl, countP_eq_one_of_find?_some h hf⟩

/-- The pair-delete of `deleteFriend` when no edge exists between the users:
nothing happens. -/
theorem deleteFriend_count_zero (db : DB) (u f : Nat) (ts : Int)
    (hm : db.user_edge.countP (fun e => isKeyEdge u f e || isKeyEdge f u e) = 0) :
    deleteFriend db u f ts = (none, db) := by
  have hf : db.user_edge.filter (fun e => !(isKeyEdge u f e || isKeyEdge f u e)) = db.user_edge :=
    filter_not_eq_self hm
  simp only [deleteFriend, execDeleteEdges, hm, hf]
  rfl

/-- The pair-delete of `deleteFriend` when exactly one edge exists between the
users: the internal consistency error. -/
theorem deleteFriend_count_one (db : DB) (u f : Nat) (ts : Int)
    (hm : db.user_edge.countP (fun e => isKeyEdge u f e || isKeyEdge f u e) = 1) :
    deleteFriend db u f ts =
      (some FriendErr.unexpectedEdgesDeleted,
       { db with user_edge := db.user_edge.filter (fun e => !(isKeyEdge u f e || isKeyEdge f u e)) }) := by
  simp only [deleteFriend, execDeleteEdges, hm]
  norm_num

theorem deleteFriendLoop_cons_ok {db : DB} {u id : Nat} {rest : List Nat} {ts : Int}
    (h : (deleteFriend db u id ts).1 = none) :
    deleteFriendLoop u ts (id :: rest) db = deleteFriendLoop u ts rest (deleteFriend db u id ts).2 := by
  simp only [deleteFriendLoop, h]

theorem deleteFriendLoop_cons_error {db : DB} {u id : Nat} {rest : List Nat} {ts : Int}
    {e : FriendErr} (h : (deleteFriend db u id ts).1 = some e) :
    deleteFriendLoop u ts (id :: rest) db = .error e := by
  simp only [deleteFriendLoop, h]

theorem DeleteFriends_of_loop_error {db : DB} {u : Nat} {ids : List Nat} {ts : Int}
    {e : FriendErr} (h : deleteFriendLoop u ts ids db = .error e) :
    DeleteFriends db u ids ts = (some e, db) := by
  simp only [DeleteFriends, Transact, h]

theorem DeleteFriends_of_loop_ok {db db1 : DB} {u : Nat} {ids : List Nat} {ts : Int}
    (h : deleteFriendLoop u ts ids db = .ok ((), db1)) :
    DeleteFriends db u ids ts = (none, db1) := by
  simp only [DeleteFriends, Transact, h]

theorem blockFriendLoop_cons_ok {db : DB} {u id : Nat} {rest : List Nat} {ts : Int}
    (h : (blockFriend db u id ts).1 = none) :
    blockFriendLoop u ts (id :: rest) db = blockFriendLoop u ts rest (blockFriend db u id ts).2 := by
  simp only [blockFriendLoop, h]

theorem blockFriendLoop_cons_error {db : DB} {u id : Nat} {rest : List Nat} {ts : Int}
    {e : FriendErr} (h : (blockFriend db u id ts).1 = some e) :
    blockFriendLoop u ts (id :: rest) db = .error e := by
  simp only [blockFriendLoop, h]

theorem BlockFriends_of_loop_error {db : DB} {u : Nat} {ids : List Nat} {ts : Int}
    {e : FriendErr} (h : blockFriendLoop u ts ids db = .error e) :
    BlockFriends db u ids ts = (some e, db) := by
  simp only [BlockFriends, Transact, h]

theorem BlockFriends_of_loop_ok {db db1 : DB} {u : Nat} {ids : List Nat} {ts : Int}
    (h : blockFriendLoop u ts ids db = .ok ((), db1)) :
    BlockFriends db u ids ts = (none, db1) := by
  simp only [BlockFriends, Transact, h]

theorem addFriendLoop_cons_ok {db : DB} {u id : Nat} {rest : List Nat} {ts : Int}
    {notifs : List (Nat × Bool)} (h : (addFriend db u id ts).1.2 = none) :
    addFriendLoop u ts (id :: rest) notifs db =
      addFriendLoop u ts rest (notifs ++ [(id, (addFriend db u id ts).1.1)]) (addFriend db u id ts).2 := by
  simp only [addFriendLoop, h]

theorem addFriendLoop_cons_benign {db : DB} {u id : Nat} {rest : List Nat} {ts : Int}
    {notifs : List (Nat × Bool)} (h : (addFriend db u id ts).1.2 = some FriendErr.errNoRows) :
    addFriendLoop u ts (id :: rest) notifs db =
      addFriendLoop u ts rest notifs (addFriend db u id ts).2 := by
  simp only [addFriendLoop, h]

theorem addFriendLoop_cons_fatal {db : DB} {u id : Nat} {rest : List Nat} {ts : Int}
    {notifs : List (Nat × Bool)}
    (h : (addFriend db u id ts).1.2 = some FriendErr.unexpectedEdgesDeleted) :
    addFriendLoop u ts (id :: rest) notifs db = .error FriendErr.unexpectedEdgesDeleted := by
  simp only [addFriendLoop, h]

theorem AddFriends_of_loop_error {db : DB} {u : Nat} {ids : List Nat} {ts : Int}
    {e : FriendErr} (h : addFriendLoop u ts ids [] db = .error e) :
    AddFriends db u ids ts = (some e, none, db) := by
  simp only [AddFriends, Transact, h]

theorem AddFriends_of_loop_ok {db db1 : DB} {u : Nat} {ids : List Nat} {ts : Int}
    {notifs : List (Nat × Bool)} (h : addFriendLoop u ts ids [] db = .ok (notifs, db1)) :
    AddFriends db u ids ts = (none, some notifs, db1) := by
  simp only [AddFriends, Transact, h]

theorem edgeCountOf_congr_users {db1 db2 : DB} (h : db1.users = db2.users) (i : Nat) :
    edgeCountOf db1 i = edgeCountOf db2 i := by
  unfold edgeCountOf findUser
  rw [h]

theorem edgeCountOf_update_hit_dec (db : DB) (pr : UserRow → Bool) (ts : Int)
    (i : Nat) (r : UserRow) (hr : findUser db i = some r) (hpr : pr r = true) :
    edgeCountOf (execUpdateUsers db pr
      (fun r => { r with edge_count := r.edge_count - 1, update_time := ts })).1 i =
      edgeCountOf db i - 1 := by
  unfold edgeCountOf
  rw [findUser_execUpdateUsers db pr
    (fun r => { r with edge_count := r.edge_count - 1, update_time := ts }) (fun r => rfl), hr]
  simp [hpr]

theorem edgeCountOf_update_hit_inc (db : DB) (pr : UserRow → Bool) (ts : Int)
    (i : Nat) (r : UserRow) (hr : findUser db i = some r) (hpr : pr r = true) :
    edgeCountOf (execUpdateUsers db pr
      (fun r => { r with edge_count := r.edge_count + 1, update_time := ts })).1 i =
      edgeCountOf db i + 1 := by
  unfold edgeCountOf
  rw [findUser_execUpdateUsers db pr
    (fun r => { r with edge_count := r.edge_count + 1, update_time := ts }) (fun r => rfl), hr]
  simp [hpr]

theorem edgeCountOf_update_miss (db : DB) (pr : UserRow → Bool) (g : UserRow → UserRow)
    (i : Nat) (hg : ∀ r, (g r).id = r.id)
    (h : ∀ r, findUser db i = some r → pr r = false) :
    edgeCountOf (execUpdateUsers db pr g).1 i = edgeCountOf db i := by
  unfold edgeCountOf
  rw [findUser_execUpdateUsers _ _ _ hg]
  cases hfu : findUser db i with
  | none => rfl
  | some r => simp [h r hfu]

/-! ### Claim C10 -/

/-- Claim C10: when exactly one directed edge exists between actor and target
(for example a unilateral blocked edge, a state the engine itself can produce),
`deleteFriend` deletes exactly one row and returns the internal error
"unexpected number of edges were deleted", and the enclosing `DeleteFriends`
batch transaction aborts with that error (committing nothing) instead of
treating the call as a benign no-op. -/
theorem deleteFriend_single_edge_error (db : DB) (u f : Nat) (ts : Int)
    (hm : edgesBetween db u f = 1) :
    (deleteFriend db u f ts).1 = some FriendErr.unexpectedEdgesDeleted ∧
    DeleteFriends db u [f] ts = (some FriendErr.unexpectedEdgesDeleted, db) := by
  have hd := deleteFriend_count_one db u f ts hm
  refine ⟨by rw [hd], ?_⟩
  exact DeleteFriends_of_loop_error (deleteFriendLoop_cons_error (by rw [hd]))

/-- Claim C10 witness: starting from two fresh users, `AddFriends 1 [2]` then
`BlockFriends 2 [1]` leaves the single unilateral blocked edge 2→1; the claim
theorem applied to that engine-produced state shows `DeleteFriends 1 [2]`
aborts with the internal error and commits nothing. -/
theorem deleteFriend_single_edge_error_witness :
    (BlockFriends (AddFriends (DB.mk [⟨1, 0, 0⟩, ⟨2, 0, 0⟩] []) 1 [2] 10).2.2 2 [1] 20).2 =
      DB.mk [⟨1, 0, 20⟩, ⟨2, 1, 10⟩] [⟨2, 1, 3, 10, 20⟩] ∧
    edgesBetween (DB.mk [⟨1, 0, 20⟩, ⟨2, 1, 10⟩] [⟨2, 1, 3, 10, 20⟩]) 1 2 = 1 ∧
    DeleteFriends (DB.mk [⟨1, 0, 20⟩, ⟨2, 1, 10⟩] [⟨2, 1, 3, 10, 20⟩]) 1 [2] 30 =
      (some FriendErr.unexpectedEdgesDeleted, DB.mk [⟨1, 0, 20⟩, ⟨2, 1, 10⟩] [⟨2, 1, 3, 10, 20⟩]) :=
  ⟨by decide, by decide,
   (deleteFriend_single_edge_error (DB.mk [⟨1, 0, 20⟩, ⟨2, 1, 10⟩] [⟨2, 1, 3, 10, 20⟩]) 1 2 30
     (by decide)).2⟩

/-! ### Claim C5 -/

/-- Claim C5: `deleteFriend` deletes both directed edges between actor and
target whatever their state; if zero rows were deleted it returns success as a
no-op (so repeating the call in one batch is a no-op both times, never an
error); if exactly one row was deleted it fails with the internal consistency
error and the batch commits nothing; if two rows were deleted it decrements
both users' `edge_count` by 1 inside the same transaction. -/
theorem deleteFriend_row_count_spec (db : DB) (u f : Nat) (ts : Int)
    (hk : keyUnique db.user_edge) (hne : u ≠ f) :
    (edgesBetween db u f = 0 →
      deleteFriend db u f ts = (none, db) ∧
      DeleteFriends db u [f, f] ts = (none, db)) ∧
    (edgesBetween db u f = 1 →
      (deleteFriend db u f ts).1 = some FriendErr.unexpectedEdgesDeleted ∧
      DeleteFriends db u [f] ts = (some FriendErr.unexpectedEdgesDeleted, db)) ∧
    (edgesBetween db u f = 2 →
      (deleteFriend db u f ts).1 = none ∧
      findEdge (deleteFriend db u f ts).2 u f = none ∧
      findEdge (deleteFriend db u f ts).2 f u = none ∧
      (userExists db u = true →
        edgeCountOf (deleteFriend db u f ts).2 u = edgeCountOf db u - 1) ∧
      (userExists db f = true →
        edgeCountOf (deleteFriend db u f ts).2 f = edgeCountOf db f - 1)) := by
  have hk1 := atMostOneP_of_keyUnique hk u f
  have hk2 := atMostOneP_of_keyUnique hk f u
  refine ⟨?_, ?_, ?_⟩
  · intro hm
    have h0 := deleteFriend_count_zero db u f ts hm
    refine ⟨h0, ?_⟩
    have hside : (deleteFriend db u f ts).1 = none := by rw [h0]
    have hst : (deleteFriend db u f ts).2 = db := by rw [h0]
    apply DeleteFriends_of_loop_ok
    rw [deleteFriendLoop_cons_ok hside, hst, deleteFriendLoop_cons_ok hside, hst]
    rfl
  · intro hm
    have hd := deleteFriend_count_one db u f ts hm
    exact ⟨by rw [hd],
      DeleteFriends_of_loop_error (deleteFriendLoop_cons_error (by rw [hd]))⟩
  · intro hm
    have hdisj : ∀ e ∈ db.user_edge, isKeyEdge u f e = true → isKeyEdge f u e = false := by
      intro e he h1
      rcases isKeyEdge_eq_true.mp h1 with ⟨hs, hd⟩
      cases h2 : isKeyEdge f u e with
      | false => rfl
      | true =>
        rcases isKeyEdge_eq_true.mp h2 with ⟨hs2, _⟩
        exact absurd (hs.symm.trans hs2) hne
    have hcnt : db.user_edge.countP (fun e => isKeyEdge u f e || isKeyEdge f u e) = 2 := hm
    have hcnt2 := hcnt
    have hsum := countP_or_disjoint (fun a ha => hdisj a ha)
    rw [hsum] at hcnt2
    rcases countP_key_cases hk1 with ⟨hc1, hf1⟩ | ⟨e1, hf1, hc1⟩
    · rcases countP_key_cases hk2 with ⟨hc2, hf2⟩ | ⟨e2, hf2, hc2⟩ <;> omega
    rcases countP_key_cases hk2 with ⟨hc2, hf2⟩ | ⟨e2, hf2, hc2⟩
    · omega
    have hke1 : isKeyEdge u f e1 = true := List.find?_some hf1
    have hke2 : isKeyEdge f u e2 = true := List.find?_some hf2
    have hres : deleteFriend db u f ts =
        (none,
         (execUpdateUsers
            ({ db with user_edge := db.user_edge.filter (fun e => !(isKeyEdge u f e || isKeyEdge f u e)) })
            (fun r => r.id == u || r.id == f)
            (fun r => { r with edge_count := r.edge_count - 1, update_time := ts })).1) := by
      simp only [deleteFriend, execDeleteEdges, hcnt]
      norm_num
    have hedges1 : (db.user_edge.filter
        (fun e => !(isKeyEdge u f e || isKeyEdge f u e))).find? (isKeyEdge u f) = none := by
      rw [find?_filter_not_some (p := fun e => isKeyEdge u f e || isKeyEdge f u e) hk1 hf1]
      simp [hke1]
    have hedges2 : (db.user_edge.filter
        (fun e => !(isKeyEdge u f e || isKeyEdge f u e))).find? (isKeyEdge f u) = none := by
      rw [find?_filter_not_some (p := fun e => isKeyEdge u f e || isKeyEdge f u e) hk2 hf2]
      simp [hke2]
    refine ⟨by rw [hres], ?_, ?_, ?_, ?_⟩
    · rw [hres]
      exact hedges1
    · rw [hres]
      exact hedges2
    · intro hu
      rcases findUser_isSome_of_userExists hu with ⟨r, hr, hrid⟩
      rw [hres]
      exact edgeCountOf_update_hit_dec
        ({ db with user_edge := db.user_edge.filter (fun e => !(isKeyEdge u f e || isKeyEdge f u e)) })
        (fun r => r.id == u || r.id == f) ts u r hr (by simp [hrid])
    · intro hu
      rcases findUser_isSome_of_userExists hu with ⟨r, hr, hrid⟩
      rw [hres]
      exact edgeCountOf_update_hit_dec
        ({ db with user_edge := db.user_edge.filter (fun e => !(isKeyEdge u f e || isKeyEdge f u e)) })
        (fun r => r.id == u || r.id == f) ts f r hr (by simp [hrid])

/-- Claim C5 witness: on a state holding the invite pair 1→2 / 2→1 with counts
5 and 7, deleting removes both edges, succeeds, and decrements both counts. -/
theorem deleteFriend_row_count_spec_witness :
    (deleteFriend (DB.mk [⟨1, 5, 0⟩, ⟨2, 7, 0⟩] [⟨1, 2, 2, 5, 5⟩, ⟨2, 1, 1, 5, 5⟩]) 1 2 9).1 = none ∧
    edgeCountOf (deleteFriend (DB.mk [⟨1, 5, 0⟩, ⟨2, 7, 0⟩] [⟨1, 2, 2, 5, 5⟩, ⟨2, 1, 1, 5, 5⟩]) 1 2 9).2 1 = 4 ∧
    edgeCountOf (deleteFriend (DB.mk [⟨1, 5, 0⟩, ⟨2, 7, 0⟩] [⟨1, 2, 2, 5, 5⟩, ⟨2, 1, 1, 5, 5⟩]) 1 2 9).2 2 = 6 := by
  have h := (deleteFriend_row_count_spec
    (DB.mk [⟨1, 5, 0⟩, ⟨2, 7, 0⟩] [⟨1, 2, 2, 5, 5⟩, ⟨2, 1, 1, 5, 5⟩]) 1 2 9
    (by decide) (by decide)).2.2 (by decide)
  refine ⟨h.1, ?_, ?_⟩
  · rw [h.2.2.2.1 (by decide)]
    decide
  · rw [h.2.2.2.2 (by decide)]
    decide

/-! ### Claim C9 -/

/-- Claim C9: every batch operation runs its per-id units inside one
transaction.  A fatal error from any unit makes the whole batch return that
error with the pre-transaction state kept (rollback, no state change commits);
a successful loop commits its final state; a benign `sql.ErrNoRows` result for
one id (`AddFriends`) skips only that id's notification and continues with the
remaining ids, and an error-free unit result (`DeleteFriends`/`BlockFriends`)
likewise continues the loop. -/
theorem batch_transaction_spec :
    (∀ (db : DB) (cu : Nat) (ids : List Nat) (ts : Int) (e : FriendErr),
      deleteFriendLoop cu ts ids db = .error e → DeleteFriends db cu ids ts = (some e, db)) ∧
    (∀ (db db1 : DB) (cu : Nat) (ids : List Nat) (ts : Int),
      deleteFriendLoop cu ts ids db = .ok ((), db1) → DeleteFriends db cu ids ts = (none, db1)) ∧
    (∀ (db : DB) (cu id : Nat) (rest : List Nat) (ts : Int),
      (deleteFriend db cu id ts).1 = none →
      deleteFriendLoop cu ts (id :: rest) db = deleteFriendLoop cu ts rest (deleteFriend db cu id ts).2) ∧
    (∀ (db : DB) (cu id : Nat) (rest : List Nat) (ts : Int) (e : FriendErr),
      (deleteFriend db cu id ts).1 = some e →
      deleteFriendLoop cu ts (id :: rest) db = .error e) ∧
    (∀ (db : DB) (cu : Nat) (ids : List Nat) (ts : Int) (e : FriendErr),
      blockFriendLoop cu ts ids db = .error e → BlockFriends db cu ids ts = (some e, db)) ∧
    (∀ (db db1 : DB) (cu : Nat) (ids : List Nat) (ts : Int),
      blockFriendLoop cu ts ids db = .ok ((), db1) → BlockFriends db cu ids ts = (none, db1)) ∧
    (∀ (db : DB) (cu : Nat) (ids : List Nat) (ts : Int) (e : FriendErr),
      addFriendLoop cu ts ids [] db = .error e → AddFriends db cu ids ts = (some e, none, db)) ∧
    (∀ (db db1 : DB) (cu : Nat) (ids : List Nat) (ts : Int) (notifs : List (Nat × Bool)),
      addFriendLoop cu ts ids [] db = .ok (notifs, db1) →
      AddFriends db cu ids ts = (none, some notifs, db1)) ∧
    (∀ (db : DB) (cu id : Nat) (rest : List Nat) (ts : Int) (notifs : List (Nat × Bool)),
      (addFriend db cu id ts).1.2 = some FriendErr.errNoRows →
      addFriendLoop cu ts (id :: rest) notifs db =
        addFriendLoop cu ts rest notifs (addFriend db cu id ts).2) ∧
    (∀ (db : DB) (cu id : Nat) (rest : List Nat) (ts : Int) (notifs : List (Nat × Bool)),
      (addFriend db cu id ts).1.2 = some FriendErr.unexpectedEdgesDeleted →
      addFriendLoop cu ts (id :: rest) notifs db = .error FriendErr.unexpectedEdgesDeleted) :=
  ⟨fun _ _ _ _ _ h => DeleteFriends_of_loop_error h,
   fun _ _ _ _ _ h => DeleteFriends_of_loop_ok h,
   fun _ _ _ _ _ h => deleteFriendLoop_cons_ok h,
   fun _ _ _ _ _ _ h => deleteFriendLoop_cons_error h,
   fun _ _ _ _ _ h => BlockFriends_of_loop_error h,
   fun _ _ _ _ _ h => BlockFriends_of_loop_ok h,
   fun _ _ _ _ _ h => AddFriends_of_loop_error h,
   fun _ _ _ _ _ _ h => AddFriends_of_loop_ok h,
   fun _ _ _ _ _ _ h => addFriendLoop_cons_benign h,
   fun _ _ _ _ _ _ h => addFriendLoop_cons_fatal h⟩

/-- Claim C9 witness: a fatal unit aborts `DeleteFriends` with the
pre-transaction state kept, while a successful `AddFriends` batch commits. -/
theorem batch_transaction_spec_witness :
    DeleteFriends (DB.mk [⟨1, 0, 20⟩, ⟨2, 1, 10⟩] [⟨2, 1, 3, 10, 20⟩]) 1 [2] 30 =
      (some FriendErr.unexpectedEdgesDeleted, DB.mk [⟨1, 0, 20⟩, ⟨2, 1, 10⟩] [⟨2, 1, 3, 10, 20⟩]) ∧
    AddFriends dbPair0 1 [2] 10 =
      (none, some [(2, false)], DB.mk [⟨1, 1, 10⟩, ⟨2, 1, 10⟩] [⟨1, 2, 2, 10, 10⟩, ⟨2, 1, 1, 10, 10⟩]) :=
  ⟨batch_transaction_spec.1 (DB.mk [⟨1, 0, 20⟩, ⟨2, 1, 10⟩] [⟨2, 1, 3, 10, 20⟩]) 1 [2] 30
      FriendErr.unexpectedEdgesDeleted rfl,
   batch_transaction_spec.2.2.2.2.2.2.2.1 dbPair0
      (DB.mk [⟨1, 1, 10⟩, ⟨2, 1, 10⟩] [⟨1, 2, 2, 10, 10⟩, ⟨2, 1, 1, 10, 10⟩]) 1 [2] 10
      [(2, false)] rfl⟩

/-! ### Claim C1 -/

/-- Claim C1 (failing input): starting from a state satisfying the count
invariant (user 1 exists with `edge_count` 0 and there are no edges; user 2
does not exist), the batch `AddFriends 1 [2]` completes without error, yet it
commits user 1's `edge_count` as 1 while no edge row with `source_id = 1`
exists: step 4 of `addFriend` increments the count even though step 3 inserted
nothing because the target user is absent.  This contradicts the claimed count
consistency (and the source's own comment that the count is raised only when
the relationship was first formed). -/
theorem addFriend_count_invariant_violation :
    edgeCountOf (DB.mk [⟨1, 0, 0⟩] []) 1 = 0 ∧
    sourceEdgeCount (DB.mk [⟨1, 0, 0⟩] []) 1 = 0 ∧
    userExists (DB.mk [⟨1, 0, 0⟩] []) 2 = false ∧
    (AddFriends (DB.mk [⟨1, 0, 0⟩] []) 1 [2] 10).1 = none ∧
    edgeCountOf (AddFriends (DB.mk [⟨1, 0, 0⟩] []) 1 [2] 10).2.2 1 = 1 ∧
    sourceEdgeCount (AddFriends (DB.mk [⟨1, 0, 0⟩] []) 1 [2] 10).2.2 1 = 0 := by
  decide

/-! ### Claim C2 -/

/-- Claim C2 (failing input): the completed call sequence
`AddFriends 1 [2]`, `BlockFriends 2 [1]`, `AddFriends 1 [2]` starting from an
empty edge set commits a state in which both directed edges between 1 and 2
exist with states `OutgoingRequest` (1→2) and `Blocked` (2→1): neither a
consistent non-blocked pair nor "at most one edge, and it is Blocked".  The
partial insert of `addFriend` step 3 resurrects 1→2 while the conflicting
mirror row is skipped. -/
theorem symmetry_invariant_violation :
    (AddFriends dbPair0 1 [2] 10).1 = none ∧
    (BlockFriends dbInvite 2 [1] 20).1 = none ∧
    (AddFriends dbBlocked 1 [2] 30).1 = none ∧
    edgesBetween dbReadd 1 2 = 2 ∧
    (findEdge dbReadd 1 2).map Edge.state = some 2 ∧
    (findEdge dbReadd 2 1).map Edge.state = some 3 := by
  decide

/-! ### Claim C4 -/

/-- Claim C4 (failing input): user 1 has an outgoing invite to user 2
(1→2 `OutgoingRequest`, 2→1 `Invited`); user 2 blocks user 1; user 1 then
calls `AddFriends 1 [2]` again.  All three batches complete without error, yet
the committed final state holds the live invite edge 1→2 in state
`OutgoingRequest` while 2's block edge 2→1 (state `Blocked`) is still present
— exactly what the claim says can never happen. -/
theorem block_overrides_pending_violation :
    (findEdge dbInvite 1 2).map Edge.state = some 2 ∧
    (findEdge dbInvite 2 1).map Edge.state = some 1 ∧
    (BlockFriends dbInvite 2 [1] 20).1 = none ∧
    (findEdge dbBlocked 2 1).map Edge.state = some 3 ∧
    findEdge dbBlocked 1 2 = none ∧
    (AddFriends dbBlocked 1 [2] 30).1 = none ∧
    (findEdge dbReadd 2 1).map Edge.state = some 3 ∧
    (findEdge dbReadd 1 2).map Edge.state = some 2 := by
  decide

/-! ### Claim C3 -/

/-- Claim C3 (counterexample): in `dbYState` the two rows match the claim's
second pattern for the call `AddFriend(1, 2)` — edge actor→target (1→2) in
state `OutgoingRequest` and edge target→actor (2→1) in state `Invited` — yet
the acceptance step updates zero rows, `addFriend` reports `accepted = false`,
and both edges keep their states: the code does not flip this pattern, so the
claimed "exactly when ... OR ..." equivalence is false at this input. -/
theorem acceptInvite_second_pattern_refuted :
    (findEdge dbYState 1 2).map Edge.state = some 2 ∧
    (findEdge dbYState 2 1).map Edge.state = some 1 ∧
    (acceptInvite dbYState 1 2 9).2 = 0 ∧
    (addFriend dbYState 1 2 9).1.1 = false ∧
    (findEdge (addFriend dbYState 1 2 9).2 1 2).map Edge.state = some 2 ∧
    (findEdge (addFriend dbYState 1 2 9).2 2 1).map Edge.state = some 1 := by
  decide

theorem countP_key_le_one {α : Type u} {k r : α → Bool} {l : List α}
    (h : atMostOneP k l) : l.countP (fun x => k x && r x) ≤ 1 := by
  cases hf : l.find? k with
  | none =>
    rw [countP_key_none hf]
    omega
  | some a =>
    rw [countP_key_some h hf]
    split <;> omega

/-- Row count of the acceptance update: it is `2` exactly when the pending pair
"friend invited user" is present. -/
theorem acceptInvite_rows (db : DB) (u f : Nat) (ts : Int) (hk : keyUnique db.user_edge) :
    (acceptInvite db u f ts).2 = 2 ↔
      (∃ e, findEdge db f u = some e ∧ e.state = 2) ∧
      (∃ e, findEdge db u f = some e ∧ e.state = 1) := by
  have hk1 := atMostOneP_of_keyUnique hk f u
  have hk2 := atMostOneP_of_keyUnique hk u f
  have hdisj : ∀ e ∈ db.user_edge, (isKeyEdge f u e && e.state == 2) = true →
      (isKeyEdge u f e && e.state == 1) = false := by
    intro e he h1
    simp only [Bool.and_eq_true, beq_iff_eq] at h1
    cases h2 : (isKeyEdge u f e && e.state == 1) with
    | false => rfl
    | true =>
      simp only [Bool.and_eq_true, beq_iff_eq] at h2
      omega
  have hn : (acceptInvite db u f ts).2 =
      db.user_edge.countP (fun e =>
        (isKeyEdge f u e && e.state == 2) || (isKeyEdge u f e && e.state == 1)) := rfl
  rw [hn, countP_or_disjoint (fun a ha => hdisj a ha)]
  constructor
  · intro h2
    have b1 : db.user_edge.countP (fun e => isKeyEdge f u e && e.state == 2) ≤ 1 :=
      countP_key_le_one hk1
    have b2 : db.user_edge.countP (fun e => isKeyEdge u f e && e.state == 1) ≤ 1 :=
      countP_key_le_one hk2
    have hc1 : db.user_edge.countP (fun e => isKeyEdge f u e && e.state == 2) = 1 := by omega
    have hc2 : db.user_edge.countP (fun e => isKeyEdge u f e && e.state == 1) = 1 := by omega
    rcases countP_key_exists hk1 hc1 with ⟨e1, hf1, hs1⟩
    rcases countP_key_exists hk2 hc2 with ⟨e2, hf2, hs2⟩
    exact ⟨⟨e1, hf1, by simpa using hs1⟩, ⟨e2, hf2, by simpa using hs2⟩⟩
  · rintro ⟨⟨e1, hf1, hs1⟩, ⟨e2, hf2, hs2⟩⟩
    rw [countP_key_some (r := fun e => e.state == 2) hk1 hf1,
        countP_key_some (r := fun e => e.state == 1) hk2 hf2]
    simp [hs1, hs2]

/-- When the pending pair "friend invited user" is present, `addFriend`
accepts: both rows flip to `Accepted` with the new `update_time`, the report is
`accepted = true` with no error, and nothing else in the state changes. -/
theorem addFriend_accept (db : DB) (u f : Nat) (ts : Int)
    (hk : keyUnique db.user_edge) (e1 e2 : Edge)
    (hf1 : findEdge db f u = some e1) (hs1 : e1.state = 2)
    (hf2 : findEdge db u f = some e2) (hs2 : e2.state = 1) :
    addFriend db u f ts = ((true, none), (acceptInvite db u f ts).1) ∧
    findEdge (acceptInvite db u f ts).1 f u = some { e1 with state := 0, update_time := ts } ∧
    findEdge (acceptInvite db u f ts).1 u f = some { e2 with state := 0, update_time := ts } ∧
    (acceptInvite db u f ts).1.users = db.users ∧
    (∀ s d, ¬(s = f ∧ d = u) → ¬(s = u ∧ d = f) →
      findEdge (acceptInvite db u f ts).1 s d = findEdge db s d) := by
  have hk2 := atMostOneP_of_keyUnique hk u f
  have hke1 : isKeyEdge f u e1 = true := List.find?_some hf1
  have hke2 : isKeyEdge u f e2 = true := List.find?_some hf2
  have hcub : db.user_edge.countP (fun e => isKeyEdge u f e && e.state == 3) = 0 := by
    rw [countP_key_some (r := fun e => e.state == 3) hk2 hf2]
    simp [hs2]
  have hub : unblockDelete db u f = (db, 0) := by
    unfold unblockDelete execDeleteEdges
    rw [hcub, filter_not_eq_self hcub]
  have hacc2 : (acceptInvite db u f ts).2 = 2 :=
    (acceptInvite_rows db u f ts hk).mpr ⟨⟨e1, hf1, hs1⟩, ⟨e2, hf2, hs2⟩⟩
  have hgk : ∀ (s d : Nat) (a : Edge),
      isKeyEdge s d (if ((isKeyEdge f u a && a.state == 2) || (isKeyEdge u f a && a.state == 1))
        then { a with state := 0, update_time := ts } else a) = isKeyEdge s d a := by
    intro s d a
    cases hpa : ((isKeyEdge f u a && a.state == 2) || (isKeyEdge u f a && a.state == 1)) with
    | true => rfl
    | false => rfl
  refine ⟨?_, ?_, ?_, rfl, ?_⟩
  · simp only [addFriend, hub]
    norm_num [hacc2]
  · show ((acceptInvite db u f ts).1.user_edge).find? (isKeyEdge f u) = _
    rw [show (acceptInvite db u f ts).1.user_edge = db.user_edge.map
        (fun a => if ((isKeyEdge f u a && a.state == 2) || (isKeyEdge u f a && a.state == 1))
          then { a with state := 0, update_time := ts } else a) from rfl]
    rw [find?_map_keyfix (hgk f u)]
    rw [show List.find? (isKeyEdge f u) db.user_edge = some e1 from hf1]
    simp [hke1, hs1]
  · show ((acceptInvite db u f ts).1.user_edge).find? (isKeyEdge u f) = _
    rw [show (acceptInvite db u f ts).1.user_edge = db.user_edge.map
        (fun a => if ((isKeyEdge f u a && a.state == 2) || (isKeyEdge u f a && a.state == 1))
          then { a with state := 0, update_time := ts } else a) from rfl]
    rw [find?_map_keyfix (hgk u f)]
    rw [show List.find? (isKeyEdge u f) db.user_edge = some e2 from hf2]
    simp [hke2, hs2]
  · intro s d h1 h2
    show ((acceptInvite db u f ts).1.user_edge).find? (isKeyEdge s d) = _
    rw [show (acceptInvite db u f ts).1.user_edge = db.user_edge.map
        (fun a => if ((isKeyEdge f u a && a.state == 2) || (isKeyEdge u f a && a.state == 1))
          then { a with state := 0, update_time := ts } else a) from rfl]
    rw [find?_map_keyfix (hgk s d)]
    cases hfe : db.user_edge.find? (isKeyEdge s d) with
    | none =>
      rw [show findEdge db s d = (none : Option Edge) from hfe]
      rfl
    | some x =>
      have hkx : isKeyEdge s d x = true := List.find?_some hfe
      rcases isKeyEdge_eq_true.mp hkx with ⟨hxs, hxd⟩
      have hx1 : isKeyEdge f u x = false := by
        cases hc : isKeyEdge f u x with
        | false => rfl
        | true =>
          rcases isKeyEdge_eq_true.mp hc with ⟨hcs, hcd⟩
          exact absurd ⟨hxs.symm.trans hcs, hxd.symm.trans hcd⟩ h1
      have hx2 : isKeyEdge u f x = false := by
        cases hc : isKeyEdge u f x with
        | false => rfl
        | true =>
          rcases isKeyEdge_eq_true.mp hc with ⟨hcs, hcd⟩
          exact absurd ⟨hxs.symm.trans hcs, hxd.symm.trans hcd⟩ h2
      rw [show findEdge db s d = some x from hfe]
      simp [hx1, hx2]

/-- Claim C3 (amended): the acceptance step of `AddFriend(actor, target)` flips
both rows to `Accepted` exactly when the two rows form the pending invite pair
"target invited actor" — edge target→actor in state `OutgoingRequest` and edge
actor→target in state `Invited`; when both rows are updated (2 rows affected)
`addFriend` reports `accepted = true` and performs no further mutation. -/
theorem acceptInvite_spec (db : DB) (u f : Nat) (ts : Int) (hk : keyUnique db.user_edge) :
    ((acceptInvite db u f ts).2 = 2 ↔
      (∃ e, findEdge db f u = some e ∧ e.state = 2) ∧
      (∃ e, findEdge db u f = some e ∧ e.state = 1)) ∧
    (∀ e1 e2, findEdge db f u = some e1 → e1.state = 2 →
      findEdge db u f = some e2 → e2.state = 1 →
      addFriend db u f ts = ((true, none), (acceptInvite db u f ts).1) ∧
      findEdge (acceptInvite db u f ts).1 f u = some { e1 with state := 0, update_time := ts } ∧
      findEdge (acceptInvite db u f ts).1 u f = some { e2 with state := 0, update_time := ts } ∧
      (acceptInvite db u f ts).1.users = db.users ∧
      (∀ s d, ¬(s = f ∧ d = u) → ¬(s = u ∧ d = f) →
        findEdge (acceptInvite db u f ts).1 s d = findEdge db s d)) :=
  ⟨acceptInvite_rows db u f ts hk,
   fun e1 e2 h1 h2 h3 h4 => addFriend_accept db u f ts hk e1 e2 h1 h2 h3 h4⟩

/-- Claim C3 witness: in `dbXState` (2→1 `OutgoingRequest`, 1→2 `Invited`),
`addFriend 1 2` accepts and flips both rows to `Accepted`. -/
theorem acceptInvite_spec_witness :
    addFriend dbXState 1 2 9 = ((true, none), (acceptInvite dbXState 1 2 9).1) ∧
    findEdge (acceptInvite dbXState 1 2 9).1 2 1 = some ⟨2, 1, 0, 5, 9⟩ ∧
    findEdge (acceptInvite dbXState 1 2 9).1 1 2 = some ⟨1, 2, 0, 5, 9⟩ := by
  have h := (acceptInvite_spec dbXState 1 2 9 (by decide)).2
    ⟨2, 1, 2, 5, 5⟩ ⟨1, 2, 1, 5, 5⟩ (by decide) rfl (by decide) rfl
  exact ⟨h.1, h.2.1, h.2.2.1⟩

theorem any_eq_false_of_find?_none {α : Type u} {k : α → Bool} {l : List α}
    (h : l.find? k = none) : l.any k = false := by
  apply List.any_eq_false.mpr
  intro x hx
  simp [List.find?_eq_none.mp h x hx]

theorem countP_ext {α : Type u} {p q : α → Bool} {l : List α}
    (h : ∀ a ∈ l, p a = q a) : l.countP p = l.countP q := by
  induction l with
  | nil => rfl
  | cons b t ih =>
    rw [List.countP_cons, List.countP_cons, h b (List.mem_cons_self _ _),
        ih (fun a ha => h a (List.mem_cons_of_mem _ ha))]

theorem find?_append_single_of_none {α : Type u} {k : α → Bool} {l : List α} {a : α}
    (h : l.find? k = none) :
    (l ++ [a]).find? k = if k a = true then some a else none := by
  rw [find?_append_single, h]

theorem find?_append_single_of_some {α : Type u} {k : α → Bool} {l : List α} {a b : α}
    (h : l.find? k = some b) : (l ++ [a]).find? k = some b := by
  rw [find?_append_single, h]

theorem keyUnique_append_two {es : List Edge} (hk : keyUnique es) (e1 e2 : Edge)
    (h1 : ∀ e ∈ es, ¬(e.source_id = e1.source_id ∧ e.destination_id = e1.destination_id))
    (h2 : ∀ e ∈ es, ¬(e.source_id = e2.source_id ∧ e.destination_id = e2.destination_id))
    (h12 : ¬(e2.source_id = e1.source_id ∧ e2.destination_id = e1.destination_id)) :
    keyUnique (es ++ [e1] ++ [e2]) := by
  induction es with
  | nil =>
    show keyUnique [e1, e2]
    refine ⟨?_, ?_, trivial⟩
    · intro x hx
      rcases List.mem_singleton.mp hx with rfl
      exact h12
    · intro x hx
      cases hx
  | cons y t ih =>
    obtain ⟨hy, ht⟩ := hk
    refine ⟨?_, ih ht (fun e he => h1 e (List.mem_cons_of_mem _ he))
      (fun e he => h2 e (List.mem_cons_of_mem _ he))⟩
    intro x hx
    have hx' : x ∈ t ++ [e1] ++ [e2] := by simpa using hx
    rcases List.mem_append.mp hx' with hx2 | hx3
    · rcases List.mem_append.mp hx2 with hxt | hxe1
      · exact hy x hxt
      · rcases List.mem_singleton.mp hxe1 with rfl
        intro hc
        exact h1 y (List.mem_cons_self _ _) ⟨hc.1.symm, hc.2.symm⟩
    · rcases List.mem_singleton.mp hx3 with rfl
      intro hc
      exact h2 y (List.mem_cons_self _ _) ⟨hc.1.symm, hc.2.symm⟩

/-! ### Claim C8 -/

/-- Claim C8: when the actor has previously blocked the target (edge
actor→target in state `Blocked`), `addFriend` deletes that edge, decrements the
actor's `edge_count` by 1, and stops: it reports `(false, sql.ErrNoRows)` —
a benign no-op distinguished from success — no other edge or count changes,
and the enclosing `AddFriends` batch commits this state without error and
without recording a notification for that id. -/
theorem addFriend_unblock_spec (db : DB) (u f : Nat) (ts : Int)
    (hk : keyUnique db.user_edge) (hu : userExists db u = true) (e : Edge)
    (hf : findEdge db u f = some e) (hs : e.state = 3) :
    (addFriend db u f ts).1 = (false, some FriendErr.errNoRows) ∧
    findEdge (addFriend db u f ts).2 u f = none ∧
    edgeCountOf (addFriend db u f ts).2 u = edgeCountOf db u - 1 ∧
    (∀ s d, ¬(s = u ∧ d = f) → findEdge (addFriend db u f ts).2 s d = findEdge db s d) ∧
    (∀ x, x ≠ u → edgeCountOf (addFriend db u f ts).2 x = edgeCountOf db x) ∧
    AddFriends db u [f] ts = (none, some [], (addFriend db u f ts).2) := by
  have hk1 := atMostOneP_of_keyUnique hk u f
  have hke : isKeyEdge u f e = true := List.find?_some hf
  have hcub : db.user_edge.countP (fun e => isKeyEdge u f e && e.state == 3) = 1 := by
    rw [countP_key_some (r := fun e => e.state == 3) hk1 hf]
    simp [hs]
  have hres : addFriend db u f ts = ((false, some FriendErr.errNoRows),
      (execUpdateUsers
        ({ db with user_edge := db.user_edge.filter (fun e => !(isKeyEdge u f e && e.state == 3)) })
        (fun r => r.id == u)
        (fun r => { r with edge_count := r.edge_count - 1, update_time := ts })).1) := by
    simp only [addFriend, unblockDelete, execDeleteEdges, hcub]
    norm_num
  refine ⟨by rw [hres], ?_, ?_, ?_, ?_, ?_⟩
  · rw [hres]
    show (db.user_edge.filter (fun e => !(isKeyEdge u f e && e.state == 3))).find? (isKeyEdge u f) = none
    rw [find?_filter_not_some (p := fun e => isKeyEdge u f e && e.state == 3) hk1 hf]
    simp [hke, hs]
  · rw [hres]
    rcases findUser_isSome_of_userExists hu with ⟨r, hr, hrid⟩
    exact edgeCountOf_update_hit_dec
      ({ db with user_edge := db.user_edge.filter (fun e => !(isKeyEdge u f e && e.state == 3)) })
      (fun r => r.id == u) ts u r hr (by simp [hrid])
  · intro s d hsd
    rw [hres]
    show (db.user_edge.filter (fun e => !(isKeyEdge u f e && e.state == 3))).find? (isKeyEdge s d) =
      findEdge db s d
    have hfr : ∀ x ∈ db.user_edge, (isKeyEdge u f x && x.state == 3) = true →
        isKeyEdge s d x = false := by
      intro x hx hpx
      have hkx : isKeyEdge u f x = true := by
        simp only [Bool.and_eq_true] at hpx
        exact hpx.1
      rcases isKeyEdge_eq_true.mp hkx with ⟨hxs, hxd⟩
      cases hc : isKeyEdge s d x with
      | false => rfl
      | true =>
        rcases isKeyEdge_eq_true.mp hc with ⟨hcs, hcd⟩
        exact absurd ⟨hcs.symm.trans hxs, hcd.symm.trans hxd⟩ hsd
    rw [find?_filter_not_other hfr]
    rfl
  · intro x hx
    rw [hres]
    exact edgeCountOf_update_miss
      ({ db with user_edge := db.user_edge.filter (fun e => !(isKeyEdge u f e && e.state == 3)) })
      (fun r => r.id == u)
      (fun r => { r with edge_count := r.edge_count - 1, update_time := ts })
      x (fun r => rfl)
      (by
        intro r hr
        have hrid : r.id = x := by
          have := List.find?_some hr
          simpa using this
        simp [hrid, hx])
  · have hb : (addFriend db u f ts).1.2 = some FriendErr.errNoRows := by rw [hres]
    apply AddFriends_of_loop_ok
    rw [addFriendLoop_cons_benign hb]
    rfl

/-- Claim C8 witness: user 1 had blocked user 2 (edge 1→2 `Blocked`);
`AddFriends 1 [2]` unblocks: the edge is gone, 1's count drops from 3 to 2, and
the batch commits with no notification recorded. -/
theorem addFriend_unblock_spec_witness :
    (addFriend (DB.mk [⟨1, 3, 0⟩, ⟨2, 1, 0⟩] [⟨1, 2, 3, 5, 5⟩]) 1 2 9).1 =
      (false, some FriendErr.errNoRows) ∧
    findEdge (addFriend (DB.mk [⟨1, 3, 0⟩, ⟨2, 1, 0⟩] [⟨1, 2, 3, 5, 5⟩]) 1 2 9).2 1 2 = none ∧
    edgeCountOf (addFriend (DB.mk [⟨1, 3, 0⟩, ⟨2, 1, 0⟩] [⟨1, 2, 3, 5, 5⟩]) 1 2 9).2 1 = 2 := by
  have h := addFriend_unblock_spec (DB.mk [⟨1, 3, 0⟩, ⟨2, 1, 0⟩] [⟨1, 2, 3, 5, 5⟩]) 1 2 9
    (by decide) (by decide) ⟨1, 2, 3, 5, 5⟩ (by decide) rfl
  refine ⟨h.1, h.2.1, ?_⟩
  rw [h.2.2.1]
  decide

/-! ### Claim C6 -/

/-- Claim C6: starting from no edges between existing distinct users `a` and
`b`, `AddFriend(a, b)` creates the pending pair (a→b `OutgoingRequest`, b→a
`Invited`) and increments both users' `edge_count` by exactly 1; the reciprocal
`AddFriend(b, a)` accepts: both directed edges end in state `Accepted`, the
accepting call changes no counts, and each user's `edge_count` has increased by
exactly 1 overall. -/
theorem addFriend_accept_convergence (db : DB) (a b : Nat) (ts1 ts2 : Int)
    (hk : keyUnique db.user_edge) (hi : idsUnique db.users) (hab : a ≠ b)
    (hua : userExists db a = true) (hub : userExists db b = true)
    (h1 : findEdge db a b = none) (h2 : findEdge db b a = none) :
    (addFriend db a b ts1).1 = (false, none) ∧
    (findEdge (addFriend db a b ts1).2 a b).map Edge.state = some 2 ∧
    (findEdge (addFriend db a b ts1).2 b a).map Edge.state = some 1 ∧
    edgeCountOf (addFriend db a b ts1).2 a = edgeCountOf db a + 1 ∧
    edgeCountOf (addFriend db a b ts1).2 b = edgeCountOf db b + 1 ∧
    (addFriend (addFriend db a b ts1).2 b a ts2).1 = (true, none) ∧
    (findEdge (addFriend (addFriend db a b ts1).2 b a ts2).2 a b).map Edge.state = some 0 ∧
    (findEdge (addFriend (addFriend db a b ts1).2 b a ts2).2 b a).map Edge.state = some 0 ∧
    edgeCountOf (addFriend (addFriend db a b ts1).2 b a ts2).2 a = edgeCountOf db a + 1 ∧
    edgeCountOf (addFriend (addFriend db a b ts1).2 b a ts2).2 b = edgeCountOf db b + 1 := by
  have h1' : db.user_edge.find? (isKeyEdge a b) = none := h1
  have h2' : db.user_edge.find? (isKeyEdge b a) = none := h2
  have hcub : db.user_edge.countP (fun e => isKeyEdge a b e && e.state == 3) = 0 :=
    countP_key_none h1'
  have hub1 : unblockDelete db a b = (db, 0) := by
    unfold unblockDelete execDeleteEdges
    rw [hcub, filter_not_eq_self hcub]
  have hprednone : ∀ x ∈ db.user_edge,
      ((isKeyEdge b a x && x.state == 2) || (isKeyEdge a b x && x.state == 1)) = false := by
    intro x hx
    simp [Bool.eq_false_iff.mpr (List.find?_eq_none.mp h1' x hx),
          Bool.eq_false_iff.mpr (List.find?_eq_none.mp h2' x hx)]
  have haccn : (acceptInvite db a b ts1).2 = 0 := by
    apply List.countP_eq_zero.mpr
    intro x hx
    simp [hprednone x hx]
  have haccid : (acceptInvite db a b ts1).1 = db := by
    show { db with user_edge := db.user_edge.map (fun e =>
      if ((isKeyEdge b a e && e.state == 2) || (isKeyEdge a b e && e.state == 1))
      then { e with state := 0, update_time := ts1 } else e) } = db
    rw [map_ite_eq_self hprednone]
  have hany1 : db.user_edge.any (isKeyEdge a b) = false := any_eq_false_of_find?_none h1'
  have hassoc : db.user_edge ++ [(⟨a, b, 2, ts1, ts1⟩ : Edge), (⟨b, a, 1, ts1, ts1⟩ : Edge)] =
      (db.user_edge ++ [(⟨a, b, 2, ts1, ts1⟩ : Edge)]) ++ [(⟨b, a, 1, ts1, ts1⟩ : Edge)] :=
    (List.append_assoc db.user_edge [⟨a, b, 2, ts1, ts1⟩] [⟨b, a, 1, ts1, ts1⟩]).symm
  have hfe1 : (db.user_edge ++ [(⟨a, b, 2, ts1, ts1⟩ : Edge)]).find? (isKeyEdge a b) =
      some ⟨a, b, 2, ts1, ts1⟩ := by
    rw [find?_append_single_of_none h1']
    simp [isKeyEdge]
  have hany2 : (db.user_edge ++ [(⟨a, b, 2, ts1, ts1⟩ : Edge)]).any (isKeyEdge b a) = false := by
    rw [List.any_append, any_eq_false_of_find?_none h2']
    simp [isKeyEdge, hab]
  have hins : insertInvitePair db a b ts1 =
      { db with user_edge := db.user_edge ++ [⟨a, b, 2, ts1, ts1⟩, ⟨b, a, 1, ts1, ts1⟩] } := by
    simp [insertInvitePair, insertEdgeOnConflictDoNothing, hub, hany1, hany2]
  have hconf : pairExistsOtherPos
      ({ db with user_edge := db.user_edge ++ [⟨a, b, 2, ts1, ts1⟩, ⟨b, a, 1, ts1, ts1⟩] })
      a b ts1 = false := by
    show (db.user_edge ++ [(⟨a, b, 2, ts1, ts1⟩ : Edge), (⟨b, a, 1, ts1, ts1⟩ : Edge)]).any
      (fun e => (isKeyEdge a b e && e.position != ts1) || (isKeyEdge b a e && e.position != ts1)) = false
    apply List.any_eq_false.mpr
    intro x hx
    rcases List.mem_append.mp hx with hxl | hx2
    · simp [Bool.eq_false_iff.mpr (List.find?_eq_none.mp h1' x hxl),
            Bool.eq_false_iff.mpr (List.find?_eq_none.mp h2' x hxl)]
    · rcases List.mem_cons.mp hx2 with rfl | hx3
      · simp [isKeyEdge, hab]
      · rcases List.mem_singleton.mp hx3 with rfl
        simp [isKeyEdge, hab]
  rcases findUser_isSome_of_userExists hua with ⟨ra, hra, hraid⟩
  rcases findUser_isSome_of_userExists hub with ⟨rb, hrb, hrbid⟩
  have hdisjU : ∀ r ∈ db.users, (r.id == a) = true → (r.id == b) = false := by
    intro r hr hr1
    simp only [beq_iff_eq] at hr1
    cases hc : (r.id == b) with
    | false => rfl
    | true =>
      simp only [beq_iff_eq] at hc
      exact absurd (hr1.symm.trans hc) hab
  have hcnt4 : (inviteCountUpdate
      ({ db with user_edge := db.user_edge ++ [⟨a, b, 2, ts1, ts1⟩, ⟨b, a, 1, ts1, ts1⟩] })
      a b ts1).2 = 2 := by
    have hn : (inviteCountUpdate
        ({ db with user_edge := db.user_edge ++ [⟨a, b, 2, ts1, ts1⟩, ⟨b, a, 1, ts1, ts1⟩] })
        a b ts1).2 =
        db.users.countP (fun r => (r.id == a || r.id == b) &&
          !(pairExistsOtherPos
            ({ db with user_edge := db.user_edge ++ [⟨a, b, 2, ts1, ts1⟩, ⟨b, a, 1, ts1, ts1⟩] })
            a b ts1)) := rfl
    rw [hn, hconf]
    rw [countP_ext (q := fun r => (r.id == a || r.id == b)) (by intro r hr; simp)]
    rw [countP_or_disjoint (fun r hr => hdisjU r hr)]
    rw [countP_eq_one_of_find?_some (atMostOneP_of_idsUnique hi a) hra,
        countP_eq_one_of_find?_some (atMostOneP_of_idsUnique hi b) hrb]
  have hres1 : addFriend db a b ts1 = ((false, none),
      (inviteCountUpdate
        ({ db with user_edge := db.user_edge ++ [⟨a, b, 2, ts1, ts1⟩, ⟨b, a, 1, ts1, ts1⟩] })
        a b ts1).1) := by
    simp only [addFriend, hub1]
    norm_num [haccn, haccid, hins, hcnt4]
  have hfeA : (db.user_edge ++ [(⟨a, b, 2, ts1, ts1⟩ : Edge), (⟨b, a, 1, ts1, ts1⟩ : Edge)]).find?
      (isKeyEdge a b) = some ⟨a, b, 2, ts1, ts1⟩ := by
    rw [hassoc]
    exact find?_append_single_of_some hfe1
  have hfeB : (db.user_edge ++ [(⟨a, b, 2, ts1, ts1⟩ : Edge), (⟨b, a, 1, ts1, ts1⟩ : Edge)]).find?
      (isKeyEdge b a) = some ⟨b, a, 1, ts1, ts1⟩ := by
    rw [hassoc]
    have hbn : (db.user_edge ++ [(⟨a, b, 2, ts1, ts1⟩ : Edge)]).find? (isKeyEdge b a) = none := by
      rw [find?_append_single_of_none h2']
      simp [isKeyEdge, hab]
    rw [find?_append_single_of_none hbn]
    simp [isKeyEdge]
  have hedges1 : findEdge (addFriend db a b ts1).2 a b = some ⟨a, b, 2, ts1, ts1⟩ := by
    rw [hres1]
    exact hfeA
  have hedges2 : findEdge (addFriend db a b ts1).2 b a = some ⟨b, a, 1, ts1, ts1⟩ := by
    rw [hres1]
    exact hfeB
  have hCa1 : edgeCountOf (addFriend db a b ts1).2 a = edgeCountOf db a + 1 := by
    rw [hres1]
    exact edgeCountOf_update_hit_inc
      ({ db with user_edge := db.user_edge ++ [⟨a, b, 2, ts1, ts1⟩, ⟨b, a, 1, ts1, ts1⟩] })
      (fun r => (r.id == a || r.id == b) &&
        !(pairExistsOtherPos
          ({ db with user_edge := db.user_edge ++ [⟨a, b, 2, ts1, ts1⟩, ⟨b, a, 1, ts1, ts1⟩] })
          a b ts1))
      ts1 a ra hra (by simp [hconf, hraid])
  have hCb1 : edgeCountOf (addFriend db a b ts1).2 b = edgeCountOf db b + 1 := by
    rw [hres1]
    exact edgeCountOf_update_hit_inc
      ({ db with user_edge := db.user_edge ++ [⟨a, b, 2, ts1, ts1⟩, ⟨b, a, 1, ts1, ts1⟩] })
      (fun r => (r.id == a || r.id == b) &&
        !(pairExistsOtherPos
          ({ db with user_edge := db.user_edge ++ [⟨a, b, 2, ts1, ts1⟩, ⟨b, a, 1, ts1, ts1⟩] })
          a b ts1))
      ts1 b rb hrb (by simp [hconf, hrbid])
  have hkdb1 : keyUnique ((addFriend db a b ts1).2).user_edge := by
    rw [hres1]
    show keyUnique (db.user_edge ++ [⟨a, b, 2, ts1, ts1⟩, ⟨b, a, 1, ts1, ts1⟩])
    rw [hassoc]
    apply keyUnique_append_two hk
    · intro e he hc
      exact (List.find?_eq_none.mp h1' e he) (isKeyEdge_eq_true.mpr ⟨hc.1, hc.2⟩)
    · intro e he hc
      exact (List.find?_eq_none.mp h2' e he) (isKeyEdge_eq_true.mpr ⟨hc.1, hc.2⟩)
    · intro hc
      exact hab hc.2
  have hacc := addFriend_accept ((addFriend db a b ts1).2) b a ts2 hkdb1
    ⟨a, b, 2, ts1, ts1⟩ ⟨b, a, 1, ts1, ts1⟩ hedges1 rfl hedges2 rfl
  have h2nd : (addFriend (addFriend db a b ts1).2 b a ts2).2 =
      (acceptInvite (addFriend db a b ts1).2 b a ts2).1 := by rw [hacc.1]
  refine ⟨by rw [hres1], by rw [hedges1]; rfl, by rw [hedges2]; rfl, hCa1, hCb1,
    by rw [hacc.1], ?_, ?_, ?_, ?_⟩
  · rw [h2nd, hacc.2.1]
    rfl
  · rw [h2nd, hacc.2.2.1]
    rfl
  · rw [h2nd, edgeCountOf_congr_users hacc.2.2.2.1 a]
    exact hCa1
  · rw [h2nd, edgeCountOf_congr_users hacc.2.2.2.1 b]
    exact hCb1

/-- Claim C6 witness: from the fresh two-user state, `addFriend 1 2` then
`addFriend 2 1` ends with both edges `Accepted` and both counts exactly 1. -/
theorem addFriend_accept_convergence_witness :
    (addFriend (addFriend dbPair0 1 2 10).2 2 1 20).1 = (true, none) ∧
    (findEdge (addFriend (addFriend dbPair0 1 2 10).2 2 1 20).2 1 2).map Edge.state = some 0 ∧
    edgeCountOf (addFriend (addFriend dbPair0 1 2 10).2 2 1 20).2 1 = 1 := by
  have h := addFriend_accept_convergence dbPair0 1 2 10 20 (by decide) (by decide) (by decide)
    (by decide) (by decide) (by decide) (by decide)
  refine ⟨h.2.2.2.2.2.1, h.2.2.2.2.2.2.1, ?_⟩
  rw [h.2.2.2.2.2.2.2.2.1]
  decide

theorem blockOppositeDelete_spec (X : DB) (u f : Nat) (ts : Int)
    (hm : atMostOneP (isKeyEdge f u) X.user_edge) :
    (∀ e2, X.user_edge.find? (isKeyEdge f u) = some e2 → e2.state = 3 →
      blockOppositeDelete X u f ts = X) ∧
    (X.user_edge.find? (isKeyEdge f u) = none → blockOppositeDelete X u f ts = X) ∧
    (∀ e2, X.user_edge.find? (isKeyEdge f u) = some e2 → e2.state ≠ 3 →
      findEdge (blockOppositeDelete X u f ts) f u = none ∧
      (∀ s d, ¬(s = f ∧ d = u) →
        findEdge (blockOppositeDelete X u f ts) s d = findEdge X s d) ∧
      (∀ r, findUser X f = some r →
        edgeCountOf (blockOppositeDelete X u f ts) f = edgeCountOf X f - 1) ∧
      (∀ x, x ≠ f → edgeCountOf (blockOppositeDelete X u f ts) x = edgeCountOf X x)) := by
  refine ⟨?_, ?_, ?_⟩
  · intro e2 hf2 hs2
    have hcnt : X.user_edge.countP (fun e => isKeyEdge f u e && !(e.state == 3)) = 0 := by
      rw [countP_key_some (r := fun e => !(e.state == 3)) hm hf2]
      simp [hs2]
    have hfilter := filter_not_eq_self hcnt
    simp only [blockOppositeDelete, execDeleteEdges, hcnt, hfilter]
    rfl
  · intro hf2
    have hcnt : X.user_edge.countP (fun e => isKeyEdge f u e && !(e.state == 3)) = 0 :=
      countP_key_none hf2
    have hfilter := filter_not_eq_self hcnt
    simp only [blockOppositeDelete, execDeleteEdges, hcnt, hfilter]
    rfl
  · intro e2 hf2 hs2
    have hke2 : isKeyEdge f u e2 = true := List.find?_some hf2
    have hbeq : (e2.state == 3) = false := beq_eq_false_iff_ne.mpr hs2
    have hcnt : X.user_edge.countP (fun e => isKeyEdge f u e && !(e.state == 3)) = 1 := by
      rw [countP_key_some (r := fun e => !(e.state == 3)) hm hf2]
      simp [hbeq]
    have hres : blockOppositeDelete X u f ts = (execUpdateUsers
        ({ X with user_edge := X.user_edge.filter (fun e => !(isKeyEdge f u e && !(e.state == 3))) })
        (fun r => r.id == f)
        (fun r => { r with edge_count := r.edge_count - 1, update_time := ts })).1 := by
      simp only [blockOppositeDelete, execDeleteEdges, hcnt]
      rfl
    refine ⟨?_, ?_, ?_, ?_⟩
    · rw [hres]
      show (X.user_edge.filter (fun e => !(isKeyEdge f u e && !(e.state == 3)))).find?
        (isKeyEdge f u) = none
      rw [find?_filter_not_some (p := fun e => isKeyEdge f u e && !(e.state == 3)) hm hf2]
      simp [hke2, hbeq]
    · intro s d hsd
      rw [hres]
      show (X.user_edge.filter (fun e => !(isKeyEdge f u e && !(e.state == 3)))).find?
        (isKeyEdge s d) = findEdge X s d
      have hfr : ∀ x ∈ X.user_edge, (isKeyEdge f u x && !(x.state == 3)) = true →
          isKeyEdge s d x = false := by
        intro x hx hpx
        have hkx : isKeyEdge f u x = true := by
          simp only [Bool.and_eq_true] at hpx
          exact hpx.1
        rcases isKeyEdge_eq_true.mp hkx with ⟨hxs, hxd⟩
        cases hc : isKeyEdge s d x with
        | false => rfl
        | true =>
          rcases isKeyEdge_eq_true.mp hc with ⟨hcs, hcd⟩
          exact absurd ⟨hcs.symm.trans hxs, hcd.symm.trans hxd⟩ hsd
      rw [find?_filter_not_other hfr]
      rfl
    · intro r hr
      rw [hres]
      have hr' : X.users.find? (fun r => r.id == f) = some r := hr
      have hrid : r.id = f := by simpa using List.find?_some hr'
      exact edgeCountOf_update_hit_dec
        ({ X with user_edge := X.user_edge.filter (fun e => !(isKeyEdge f u e && !(e.state == 3))) })
        (fun r => r.id == f) ts f r hr (by simp [hrid])
    · intro x hx
      rw [hres]
      apply edgeCountOf_update_miss
      · exact fun r => rfl
      · intro r hr
        have hrid : r.id = x := by simpa using List.find?_some hr
        simp [hrid, hx]

/-! ### Claim C7 -/

/-- Claim C7: `blockFriend(actor, target)` never errors; it first updates an
existing actor→target edge to `Blocked` (keeping the actor's `edge_count`); if
no such row existed it inserts an actor→target `Blocked` edge only when the
target user exists and then increments the actor's `edge_count` by 1, and it is
a benign no-op leaving the state untouched when the target does not exist; in
every path the opposite edge target→actor is deleted unless it is itself
already `Blocked` (a blocked opposite edge survives), and the target's
`edge_count` is decremented by 1 exactly when that delete removed a row. -/
theorem blockFriend_spec (db : DB) (u f : Nat) (ts : Int)
    (hk : keyUnique db.user_edge) (he : edgeUsersExist db)
    (hne : u ≠ f) (hu : userExists db u = true) :
    (blockFriend db u f ts).1 = none ∧
    (∀ e, findEdge db u f = some e →
      findEdge (blockFriend db u f ts).2 u f = some { e with state := 3, update_time := ts } ∧
      edgeCountOf (blockFriend db u f ts).2 u = edgeCountOf db u) ∧
    (findEdge db u f = none → userExists db f = true →
      findEdge (blockFriend db u f ts).2 u f = some ⟨u, f, 3, ts, ts⟩ ∧
      edgeCountOf (blockFriend db u f ts).2 u = edgeCountOf db u + 1) ∧
    (findEdge db u f = none → userExists db f = false → (blockFriend db u f ts).2 = db) ∧
    (∀ e2, findEdge db f u = some e2 → e2.state = 3 →
      findEdge (blockFriend db u f ts).2 f u = some e2 ∧
      edgeCountOf (blockFriend db u f ts).2 f = edgeCountOf db f) ∧
    (∀ e2, findEdge db f u = some e2 → e2.state ≠ 3 →
      findEdge (blockFriend db u f ts).2 f u = none ∧
      edgeCountOf (blockFriend db u f ts).2 f = edgeCountOf db f - 1) ∧
    (findEdge db f u = none →
      findEdge (blockFriend db u f ts).2 f u = none ∧
      edgeCountOf (blockFriend db u f ts).2 f = edgeCountOf db f) := by
  have hk1 := atMostOneP_of_keyUnique hk u f
  have hk2 := atMostOneP_of_keyUnique hk f u
  have hgk : ∀ (s d : Nat) (x : Edge), isKeyEdge s d
      (if isKeyEdge u f x then { x with state := 3, update_time := ts } else x) =
      isKeyEdge s d x := by
    intro s d x
    cases hx : isKeyEdge u f x with
    | true => rfl
    | false => rfl
  have hmA : atMostOneP (isKeyEdge f u) (({ db with user_edge := db.user_edge.map (fun x => if isKeyEdge u f x then { x with state := 3, update_time := ts } else x) })).user_edge :=
    atMostOneP_map_keyfix (hgk f u) hk2
  have hA : ∀ e, findEdge db u f = some e →
      blockFriend db u f ts = (none, blockOppositeDelete ({ db with user_edge := db.user_edge.map (fun x => if isKeyEdge u f x then { x with state := 3, update_time := ts } else x) }) u f ts) := by
    intro e hfe
    have hn1 : db.user_edge.countP (fun x => isKeyEdge u f x) = 1 :=
      countP_eq_one_of_find?_some hk1 hfe
    simp only [blockFriend, execUpdateEdges, hn1]
    norm_num
  have hfindA : ∀ (s d : Nat), (({ db with user_edge := db.user_edge.map (fun x => if isKeyEdge u f x then { x with state := 3, update_time := ts } else x) })).user_edge.find? (isKeyEdge s d) =
      (db.user_edge.find? (isKeyEdge s d)).map
        (fun x => if isKeyEdge u f x then { x with state := 3, update_time := ts } else x) := by
    intro s d
    exact find?_map_keyfix (hgk s d)
  -- the B scenario: no actor→target edge, target exists
  have hB : findEdge db u f = none → userExists db f = true →
      blockFriend db u f ts = (none, blockOppositeDelete ((execUpdateUsers ({ db with user_edge := db.user_edge ++ [⟨u, f, 3, ts, ts⟩] }) (fun r => r.id == u) (fun r => { r with edge_count := r.edge_count + 1, update_time := ts })).1) u f ts) := by
    intro hfe hex
    have hn0 : db.user_edge.countP (fun x => isKeyEdge u f x) = 0 :=
      countP_eq_zero_of_find?_none hfe
    have hmapid : db.user_edge.map
        (fun x => if isKeyEdge u f x then { x with state := 3, update_time := ts } else x) =
        db.user_edge :=
      map_ite_eq_self (fun x hx => Bool.eq_false_iff.mpr (List.find?_eq_none.mp hfe x hx))
    simp only [blockFriend, execUpdateEdges, hn0, hmapid,
      show ({ db with user_edge := db.user_edge } : DB) = db from rfl, hex]
    norm_num
  have hC : findEdge db u f = none → userExists db f = false →
      blockFriend db u f ts = (none, db) := by
    intro hfe hex
    have hn0 : db.user_edge.countP (fun x => isKeyEdge u f x) = 0 :=
      countP_eq_zero_of_find?_none hfe
    have hmapid : db.user_edge.map
        (fun x => if isKeyEdge u f x then { x with state := 3, update_time := ts } else x) =
        db.user_edge :=
      map_ite_eq_self (fun x hx => Bool.eq_false_iff.mpr (List.find?_eq_none.mp hfe x hx))
    simp only [blockFriend, execUpdateEdges, hn0, hmapid,
      show ({ db with user_edge := db.user_edge } : DB) = db from rfl, hex]
    norm_num
  have hmB : atMostOneP (isKeyEdge f u) (((execUpdateUsers ({ db with user_edge := db.user_edge ++ [⟨u, f, 3, ts, ts⟩] }) (fun r => r.id == u) (fun r => { r with edge_count := r.edge_count + 1, update_time := ts })).1)).user_edge := by
    show atMostOneP (isKeyEdge f u) (db.user_edge ++ [⟨u, f, 3, ts, ts⟩])
    apply atMostOneP_append_single hk2
    intro hcontra
    exact absurd hcontra (by simp [isKeyEdge, hne])
  have hfindB : ∀ (s d : Nat), (((execUpdateUsers ({ db with user_edge := db.user_edge ++ [⟨u, f, 3, ts, ts⟩] }) (fun r => r.id == u) (fun r => { r with edge_count := r.edge_count + 1, update_time := ts })).1)).user_edge.find? (isKeyEdge s d) =
      (db.user_edge ++ [(⟨u, f, 3, ts, ts⟩ : Edge)]).find? (isKeyEdge s d) := fun s d => rfl
  have hcountXB_u : edgeCountOf ((execUpdateUsers ({ db with user_edge := db.user_edge ++ [⟨u, f, 3, ts, ts⟩] }) (fun r => r.id == u) (fun r => { r with edge_count := r.edge_count + 1, update_time := ts })).1) u = edgeCountOf db u + 1 := by
    rcases findUser_isSome_of_userExists hu with ⟨ru, hru, hruid⟩
    exact edgeCountOf_update_hit_inc ({ db with user_edge := db.user_edge ++ [⟨u, f, 3, ts, ts⟩] }) (fun r => r.id == u) ts u ru hru (by simp [hruid])
  have hcountXB_other : ∀ x, x ≠ u → edgeCountOf ((execUpdateUsers ({ db with user_edge := db.user_edge ++ [⟨u, f, 3, ts, ts⟩] }) (fun r => r.id == u) (fun r => { r with edge_count := r.edge_count + 1, update_time := ts })).1) x = edgeCountOf db x := by
    intro x hx
    apply edgeCountOf_update_miss
    · exact fun r => rfl
    · intro r hr
      have hrid : r.id = x := by simpa using List.find?_some hr
      simp [hrid, hx]
  have hfuB_none : findEdge db f u = none →
      (((execUpdateUsers ({ db with user_edge := db.user_edge ++ [⟨u, f, 3, ts, ts⟩] }) (fun r => r.id == u) (fun r => { r with edge_count := r.edge_count + 1, update_time := ts })).1)).user_edge.find? (isKeyEdge f u) = none := by
    intro h0
    rw [hfindB, find?_append_single_of_none h0]
    simp [isKeyEdge, hne]
  have hfuB_some : ∀ e2, findEdge db f u = some e2 →
      (((execUpdateUsers ({ db with user_edge := db.user_edge ++ [⟨u, f, 3, ts, ts⟩] }) (fun r => r.id == u) (fun r => { r with edge_count := r.edge_count + 1, update_time := ts })).1)).user_edge.find? (isKeyEdge f u) = some e2 := by
    intro e2 h0
    rw [hfindB]
    exact find?_append_single_of_some h0
  have hfuA_some : ∀ e2, findEdge db f u = some e2 →
      (({ db with user_edge := db.user_edge.map (fun x => if isKeyEdge u f x then { x with state := 3, update_time := ts } else x) })).user_edge.find? (isKeyEdge f u) = some e2 := by
    intro e2 h0
    rw [hfindA]
    have hke2 : isKeyEdge f u e2 = true := List.find?_some h0
    have hne2 : isKeyEdge u f e2 = false := by
      rcases isKeyEdge_eq_true.mp hke2 with ⟨hs, hd⟩
      cases hc : isKeyEdge u f e2 with
      | false => rfl
      | true =>
        rcases isKeyEdge_eq_true.mp hc with ⟨hs2, _⟩
        exact absurd (hs2.symm.trans hs) hne
    rw [show List.find? (isKeyEdge f u) db.user_edge = some e2 from h0]
    simp [hne2]
  have hsomeFU_exists : ∀ e2, findEdge db f u = some e2 → userExists db f = true := by
    intro e2 h0
    have hmem := List.mem_of_find?_eq_some h0
    have hke2 : isKeyEdge f u e2 = true := List.find?_some h0
    rcases isKeyEdge_eq_true.mp hke2 with ⟨hs, _⟩
    have := (he e2 hmem).1
    rw [hs] at this
    exact this
  refine ⟨?_, ?_, ?_, ?_, ?_, ?_, ?_⟩
  · -- never errors
    cases hfe : findEdge db u f with
    | some e => rw [hA e hfe]
    | none =>
      cases hex : userExists db f with
      | true => rw [hB hfe hex]
      | false => rw [hC hfe hex]
  · -- existing actor→target edge is flipped to Blocked, actor count unchanged
    intro e hfe
    have hres := hA e hfe
    have hkeE : isKeyEdge u f e = true := List.find?_some hfe
    have hXAuf : findEdge ({ db with user_edge := db.user_edge.map (fun x => if isKeyEdge u f x then { x with state := 3, update_time := ts } else x) }) u f = some { e with state := 3, update_time := ts } := by
      show (({ db with user_edge := db.user_edge.map (fun x => if isKeyEdge u f x then { x with state := 3, update_time := ts } else x) })).user_edge.find? (isKeyEdge u f) = _
      rw [hfindA, show List.find? (isKeyEdge u f) db.user_edge = some e from hfe]
      simp [hkeE]
    have hXAcu : edgeCountOf ({ db with user_edge := db.user_edge.map (fun x => if isKeyEdge u f x then { x with state := 3, update_time := ts } else x) }) u = edgeCountOf db u := rfl
    have hspec := blockOppositeDelete_spec ({ db with user_edge := db.user_edge.map (fun x => if isKeyEdge u f x then { x with state := 3, update_time := ts } else x) }) u f ts hmA
    cases hfu2 : findEdge db f u with
    | none =>
      have hXAnone : (({ db with user_edge := db.user_edge.map (fun x => if isKeyEdge u f x then { x with state := 3, update_time := ts } else x) })).user_edge.find? (isKeyEdge f u) = none := by
        rw [hfindA, show List.find? (isKeyEdge f u) db.user_edge = none from hfu2]
        rfl
      have hid := hspec.2.1 hXAnone
      rw [hres]
      constructor
      · show findEdge (blockOppositeDelete ({ db with user_edge := db.user_edge.map (fun x => if isKeyEdge u f x then { x with state := 3, update_time := ts } else x) }) u f ts) u f = _
        rw [hid]
        exact hXAuf
      · show edgeCountOf (blockOppositeDelete ({ db with user_edge := db.user_edge.map (fun x => if isKeyEdge u f x then { x with state := 3, update_time := ts } else x) }) u f ts) u = _
        rw [hid]
        exact hXAcu
    | some e2 =>
      by_cases hs3 : e2.state = 3
      · have hid := hspec.1 e2 (hfuA_some e2 hfu2) hs3
        rw [hres]
        constructor
        · show findEdge (blockOppositeDelete ({ db with user_edge := db.user_edge.map (fun x => if isKeyEdge u f x then { x with state := 3, update_time := ts } else x) }) u f ts) u f = _
          rw [hid]
          exact hXAuf
        · show edgeCountOf (blockOppositeDelete ({ db with user_edge := db.user_edge.map (fun x => if isKeyEdge u f x then { x with state := 3, update_time := ts } else x) }) u f ts) u = _
          rw [hid]
          exact hXAcu
      · have hdel := hspec.2.2 e2 (hfuA_some e2 hfu2) hs3
        rw [hres]
        constructor
        · show findEdge (blockOppositeDelete ({ db with user_edge := db.user_edge.map (fun x => if isKeyEdge u f x then { x with state := 3, update_time := ts } else x) }) u f ts) u f = _
          rw [hdel.2.1 u f (by intro hc; exact hne hc.2.symm)]
          exact hXAuf
        · show edgeCountOf (blockOppositeDelete ({ db with user_edge := db.user_edge.map (fun x => if isKeyEdge u f x then { x with state := 3, update_time := ts } else x) }) u f ts) u = _
          rw [hdel.2.2.2 u hne]
          exact hXAcu
  · -- fresh insert when target exists
    intro hfe hex
    have hres := hB hfe hex
    have hXBuf : findEdge ((execUpdateUsers ({ db with user_edge := db.user_edge ++ [⟨u, f, 3, ts, ts⟩] }) (fun r => r.id == u) (fun r => { r with edge_count := r.edge_count + 1, update_time := ts })).1) u f = some ⟨u, f, 3, ts, ts⟩ := by
      show (((execUpdateUsers ({ db with user_edge := db.user_edge ++ [⟨u, f, 3, ts, ts⟩] }) (fun r => r.id == u) (fun r => { r with edge_count := r.edge_count + 1, update_time := ts })).1)).user_edge.find? (isKeyEdge u f) = _
      rw [hfindB, find?_append_single_of_none hfe]
      simp [isKeyEdge]
    have hspec := blockOppositeDelete_spec ((execUpdateUsers ({ db with user_edge := db.user_edge ++ [⟨u, f, 3, ts, ts⟩] }) (fun r => r.id == u) (fun r => { r with edge_count := r.edge_count + 1, update_time := ts })).1) u f ts hmB
    cases hfu2 : findEdge db f u with
    | none =>
      have hid := hspec.2.1 (hfuB_none hfu2)
      rw [hres]
      constructor
      · show findEdge (blockOppositeDelete ((execUpdateUsers ({ db with user_edge := db.user_edge ++ [⟨u, f, 3, ts, ts⟩] }) (fun r => r.id == u) (fun r => { r with edge_count := r.edge_count + 1, update_time := ts })).1) u f ts) u f = _
        rw [hid]
        exact hXBuf
      · show edgeCountOf (blockOppositeDelete ((execUpdateUsers ({ db with user_edge := db.user_edge ++ [⟨u, f, 3, ts, ts⟩] }) (fun r => r.id == u) (fun r => { r with edge_count := r.edge_count + 1, update_time := ts })).1) u f ts) u = _
        rw [hid]
        exact hcountXB_u
    | some e2 =>
      by_cases hs3 : e2.state = 3
      · have hid := hspec.1 e2 (hfuB_some e2 hfu2) hs3
        rw [hres]
        constructor
        · show findEdge (blockOppositeDelete ((execUpdateUsers ({ db with user_edge := db.user_edge ++ [⟨u, f, 3, ts, ts⟩] }) (fun r => r.id == u) (fun r => { r with edge_count := r.edge_count + 1, update_time := ts })).1) u f ts) u f = _
          rw [hid]
          exact hXBuf
        · show edgeCountOf (blockOppositeDelete ((execUpdateUsers ({ db with user_edge := db.user_edge ++ [⟨u, f, 3, ts, ts⟩] }) (fun r => r.id == u) (fun r => { r with edge_count := r.edge_count + 1, update_time := ts })).1) u f ts) u = _
          rw [hid]
          exact hcountXB_u
      · have hdel := hspec.2.2 e2 (hfuB_some e2 hfu2) hs3
        rw [hres]
        constructor
        · show findEdge (blockOppositeDelete ((execUpdateUsers ({ db with user_edge := db.user_edge ++ [⟨u, f, 3, ts, ts⟩] }) (fun r => r.id == u) (fun r => { r with edge_count := r.edge_count + 1, update_time := ts })).1) u f ts) u f = _
          rw [hdel.2.1 u f (by intro hc; exact hne hc.2.symm)]
          exact hXBuf
        · show edgeCountOf (blockOppositeDelete ((execUpdateUsers ({ db with user_edge := db.user_edge ++ [⟨u, f, 3, ts, ts⟩] }) (fun r => r.id == u) (fun r => { r with edge_count := r.edge_count + 1, update_time := ts })).1) u f ts) u = _
          rw [hdel.2.2.2 u hne]
          exact hcountXB_u
  · -- target does not exist: untouched state
    intro hfe hex
    rw [hC hfe hex]
  · -- blocked opposite edge survives, target count unchanged
    intro e2 hfu2 hs3
    cases hfe : findEdge db u f with
    | some e =>
      have hres := hA e hfe
      have hspec := blockOppositeDelete_spec ({ db with user_edge := db.user_edge.map (fun x => if isKeyEdge u f x then { x with state := 3, update_time := ts } else x) }) u f ts hmA
      have hid := hspec.1 e2 (hfuA_some e2 hfu2) hs3
      rw [hres]
      constructor
      · show findEdge (blockOppositeDelete ({ db with user_edge := db.user_edge.map (fun x => if isKeyEdge u f x then { x with state := 3, update_time := ts } else x) }) u f ts) f u = _
        rw [hid]
        exact hfuA_some e2 hfu2
      · show edgeCountOf (blockOppositeDelete ({ db with user_edge := db.user_edge.map (fun x => if isKeyEdge u f x then { x with state := 3, update_time := ts } else x) }) u f ts) f = _
        rw [hid]
        rfl
    | none =>
      have hex := hsomeFU_exists e2 hfu2
      have hres := hB hfe hex
      have hspec := blockOppositeDelete_spec ((execUpdateUsers ({ db with user_edge := db.user_edge ++ [⟨u, f, 3, ts, ts⟩] }) (fun r => r.id == u) (fun r => { r with edge_count := r.edge_count + 1, update_time := ts })).1) u f ts hmB
      have hid := hspec.1 e2 (hfuB_some e2 hfu2) hs3
      rw [hres]
      constructor
      · show findEdge (blockOppositeDelete ((execUpdateUsers ({ db with user_edge := db.user_edge ++ [⟨u, f, 3, ts, ts⟩] }) (fun r => r.id == u) (fun r => { r with edge_count := r.edge_count + 1, update_time := ts })).1) u f ts) f u = _
        rw [hid]
        exact hfuB_some e2 hfu2
      · show edgeCountOf (blockOppositeDelete ((execUpdateUsers ({ db with user_edge := db.user_edge ++ [⟨u, f, 3, ts, ts⟩] }) (fun r => r.id == u) (fun r => { r with edge_count := r.edge_count + 1, update_time := ts })).1) u f ts) f = _
        rw [hid]
        exact hcountXB_other f (fun hc => hne hc.symm)
  · -- non-blocked opposite edge is deleted, target count decremented
    intro e2 hfu2 hs3
    have hexf : userExists db f = true := hsomeFU_exists e2 hfu2
    rcases findUser_isSome_of_userExists hexf with ⟨rf, hrf, hrfid⟩
    cases hfe : findEdge db u f with
    | some e =>
      have hres := hA e hfe
      have hspec := blockOppositeDelete_spec ({ db with user_edge := db.user_edge.map (fun x => if isKeyEdge u f x then { x with state := 3, update_time := ts } else x) }) u f ts hmA
      have hdel := hspec.2.2 e2 (hfuA_some e2 hfu2) hs3
      rw [hres]
      refine ⟨hdel.1, ?_⟩
      show edgeCountOf (blockOppositeDelete ({ db with user_edge := db.user_edge.map (fun x => if isKeyEdge u f x then { x with state := 3, update_time := ts } else x) }) u f ts) f = _
      rw [hdel.2.2.1 rf hrf]
      rfl
    | none =>
      have hres := hB hfe hexf
      have hspec := blockOppositeDelete_spec ((execUpdateUsers ({ db with user_edge := db.user_edge ++ [⟨u, f, 3, ts, ts⟩] }) (fun r => r.id == u) (fun r => { r with edge_count := r.edge_count + 1, update_time := ts })).1) u f ts hmB
      have hdel := hspec.2.2 e2 (hfuB_some e2 hfu2) hs3
      rw [hres]
      refine ⟨hdel.1, ?_⟩
      show edgeCountOf (blockOppositeDelete ((execUpdateUsers ({ db with user_edge := db.user_edge ++ [⟨u, f, 3, ts, ts⟩] }) (fun r => r.id == u) (fun r => { r with edge_count := r.edge_count + 1, update_time := ts })).1) u f ts) f = _
      have hrfB : findUser ((execUpdateUsers ({ db with user_edge := db.user_edge ++ [⟨u, f, 3, ts, ts⟩] }) (fun r => r.id == u) (fun r => { r with edge_count := r.edge_count + 1, update_time := ts })).1) f = some rf := by
        rw [findUser_execUpdateUsers ({ db with user_edge := db.user_edge ++ [⟨u, f, 3, ts, ts⟩] }) (fun r => r.id == u)
          (fun r => { r with edge_count := r.edge_count + 1, update_time := ts })
          (fun r => rfl) f]
        rw [show findUser ({ db with user_edge := db.user_edge ++ [⟨u, f, 3, ts, ts⟩] }) f = some rf from hrf]
        have hfu' : f ≠ u := fun hc => hne hc.symm
        simp [hrfid, hfu']
      rw [hdel.2.2.1 rf hrfB]
      rw [hcountXB_other f (fun hc => hne hc.symm)]
  · -- no opposite edge: nothing to delete, target count unchanged
    intro hfu2
    cases hfe : findEdge db u f with
    | some e =>
      have hres := hA e hfe
      have hspec := blockOppositeDelete_spec ({ db with user_edge := db.user_edge.map (fun x => if isKeyEdge u f x then { x with state := 3, update_time := ts } else x) }) u f ts hmA
      have hXAnone : (({ db with user_edge := db.user_edge.map (fun x => if isKeyEdge u f x then { x with state := 3, update_time := ts } else x) })).user_edge.find? (isKeyEdge f u) = none := by
        rw [hfindA, show List.find? (isKeyEdge f u) db.user_edge = none from hfu2]
        rfl
      have hid := hspec.2.1 hXAnone
      rw [hres]
      constructor
      · show findEdge (blockOppositeDelete ({ db with user_edge := db.user_edge.map (fun x => if isKeyEdge u f x then { x with state := 3, update_time := ts } else x) }) u f ts) f u = _
        rw [hid]
        exact hXAnone
      · show edgeCountOf (blockOppositeDelete ({ db with user_edge := db.user_edge.map (fun x => if isKeyEdge u f x then { x with state := 3, update_time := ts } else x) }) u f ts) f = _
        rw [hid]
        rfl
    | none =>
      cases hex : userExists db f with
      | false =>
        rw [hC hfe hex]
        exact ⟨hfu2, rfl⟩
      | true =>
        have hres := hB hfe hex
        have hspec := blockOppositeDelete_spec ((execUpdateUsers ({ db with user_edge := db.user_edge ++ [⟨u, f, 3, ts, ts⟩] }) (fun r => r.id == u) (fun r => { r with edge_count := r.edge_count + 1, update_time := ts })).1) u f ts hmB
        have hid := hspec.2.1 (hfuB_none hfu2)
        rw [hres]
        constructor
        · show findEdge (blockOppositeDelete ((execUpdateUsers ({ db with user_edge := db.user_edge ++ [⟨u, f, 3, ts, ts⟩] }) (fun r => r.id == u) (fun r => { r with edge_count := r.edge_count + 1, update_time := ts })).1) u f ts) f u = _
          rw [hid]
          exact hfuB_none hfu2
        · show edgeCountOf (blockOppositeDelete ((execUpdateUsers ({ db with user_edge := db.user_edge ++ [⟨u, f, 3, ts, ts⟩] }) (fun r => r.id == u) (fun r => { r with edge_count := r.edge_count + 1, update_time := ts })).1) u f ts) f = _
          rw [hid]
          exact hcountXB_other f (fun hc => hne hc.symm)

/-- Claim C7 witness: user 1 blocks user 2 starting from the accepted pair:
1→2 becomes `Blocked`, the opposite 2→1 edge is deleted, 1's count stays 1 and
2's count drops to 0. -/
theorem blockFriend_spec_witness :
    (blockFriend (DB.mk [⟨1, 1, 0⟩, ⟨2, 1, 0⟩] [⟨1, 2, 0, 5, 5⟩, ⟨2, 1, 0, 5, 5⟩]) 1 2 9).1 = none ∧
    (findEdge (blockFriend (DB.mk [⟨1, 1, 0⟩, ⟨2, 1, 0⟩] [⟨1, 2, 0, 5, 5⟩, ⟨2, 1, 0, 5, 5⟩]) 1 2 9).2 1 2).map
      Edge.state = some 3 ∧
    findEdge (blockFriend (DB.mk [⟨1, 1, 0⟩, ⟨2, 1, 0⟩] [⟨1, 2, 0, 5, 5⟩, ⟨2, 1, 0, 5, 5⟩]) 1 2 9).2 2 1 = none ∧
    edgeCountOf (blockFriend (DB.mk [⟨1, 1, 0⟩, ⟨2, 1, 0⟩] [⟨1, 2, 0, 5, 5⟩, ⟨2, 1, 0, 5, 5⟩]) 1 2 9).2 2 = 0 := by
  have h := blockFriend_spec (DB.mk [⟨1, 1, 0⟩, ⟨2, 1, 0⟩] [⟨1, 2, 0, 5, 5⟩, ⟨2, 1, 0, 5, 5⟩]) 1 2 9
    (by decide) (by decide) (by decide) (by decide)
  have hb := h.2.1 ⟨1, 2, 0, 5, 5⟩ (by decide)
  have hd := h.2.2.2.2.2.1 ⟨2, 1, 0, 5, 5⟩ (by decide) (by decide)
  refine ⟨h.1, ?_, hd.1, ?_⟩
  · rw [hb.1]
    rfl
  · rw [hd.2]
    decide
